import Mathlib

/-!
Verification development for the session-identity layer of a pomelo-style
frontend server: the SessionService registry (sid table and uid index),
the Session close protocol, and the FrontendSession projection.

The JavaScript/TypeScript source is embedded shallowly:

* JS objects holding sessions are modelled as a heap (`store`) of session
  records addressed by allocation references, so that the same Session
  object referenced from the sid table and from a uid bucket is shared, as
  in the source.
* JS plain-object maps (`sessions`, `uidMap`, `settings`) are association
  lists with first-occurrence lookup.
* Nullable fields (`session.uid`) are `Option`; JS truthiness of a number
  is modelled explicitly (`0` and `null` are falsy).
* Emitted events, socket operations and callback invocations are recorded
  in an append-only trace; each callback record carries the flag saying
  whether the source delivered it through process.nextTick or
  synchronously from the call frame.
-/

/-! ## Association-list maps (JS plain objects) -/

def mLook [DecidableEq α] (k : α) : List (α × β) → Option β
  | [] => none
  | (k', v') :: t => if k' = k then some v' else mLook k t

def mPut [DecidableEq α] (k : α) (v : β) : List (α × β) → List (α × β)
  | [] => [(k, v)]
  | (k', v') :: t => if k' = k then (k, v) :: t else (k', v') :: mPut k v t

def mDrop [DecidableEq α] (k : α) : List (α × β) → List (α × β)
  | [] => []
  | (k', v') :: t => if k' = k then t else (k', v') :: mDrop k t

/-- Keys of the association list are pairwise distinct. -/
def ndKeys (m : List (α × β)) : Prop := (m.map Prod.fst).Nodup

theorem mLook_eq_none_iff [DecidableEq α] {k : α} {m : List (α × β)} :
    mLook k m = none ↔ k ∉ m.map Prod.fst := by
  induction m with
  | nil => simp [mLook]
  | cons hd t ih =>
    obtain ⟨k₀, v₀⟩ := hd
    by_cases hk : k₀ = k
    · subst hk
      simp [mLook]
    · have hk' : ¬ k = k₀ := fun hh => hk hh.symm
      simp only [mLook, if_neg hk, List.map_cons, List.mem_cons]
      rw [ih]
      constructor
      · intro hnm hmem
        rcases hmem with hh | hh
        · exact hk' hh
        · exact hnm hh
      · intro hnm hmem
        exact hnm (Or.inr hmem)

@[simp]
theorem mLook_mPut_self [DecidableEq α] (k : α) (v : β) (m : List (α × β)) :
    mLook k (mPut k v m) = some v := by
  induction m with
  | nil => simp [mPut, mLook]
  | cons hd t ih =>
    obtain ⟨k₀, v₀⟩ := hd
    by_cases hk : k₀ = k
    · simp [mPut, if_pos hk, mLook]
    · simp only [mPut, if_neg hk, mLook, if_neg hk]
      exact ih

theorem mLook_mPut_ne [DecidableEq α] {k k' : α} (v : β) (m : List (α × β)) (h : k' ≠ k) :
    mLook k' (mPut k v m) = mLook k' m := by
  have hne : ¬ (k = k') := fun hh => h hh.symm
  induction m with
  | nil => simp [mPut, mLook, hne]
  | cons hd t ih =>
    obtain ⟨k₀, v₀⟩ := hd
    by_cases hk : k₀ = k
    · have hne₀ : ¬ (k₀ = k') := by rw [hk]; exact hne
      simp [mPut, if_pos hk, mLook, hne, hne₀]
    · by_cases hk' : k₀ = k'
      · simp [mPut, if_neg hk, mLook, if_pos hk']
      · simp only [mPut, if_neg hk, mLook, if_neg hk']
        exact ih

theorem mLook_mDrop_ne [DecidableEq α] {k k' : α} (m : List (α × β)) (h : k' ≠ k) :
    mLook k' (mDrop k m) = mLook k' m := by
  induction m with
  | nil => simp [mDrop]
  | cons hd t ih =>
    obtain ⟨k₀, v₀⟩ := hd
    by_cases hk : k₀ = k
    · have hne₀ : ¬ (k₀ = k') := by
        rw [hk]; exact fun hh => h hh.symm
      simp [mDrop, if_pos hk, mLook, hne₀]
    · by_cases hk' : k₀ = k'
      · simp [mDrop, if_neg hk, mLook, if_pos hk']
      · simp only [mDrop, if_neg hk, mLook, if_neg hk']
        exact ih

theorem mLook_mDrop_self [DecidableEq α] {k : α} {m : List (α × β)} (h : ndKeys m) :
    mLook k (mDrop k m) = none := by
  induction m with
  | nil => simp [mDrop, mLook]
  | cons hd t ih =>
    obtain ⟨k₀, v₀⟩ := hd
    have h1 : k₀ ∉ t.map Prod.fst := (List.nodup_cons.mp h).1
    have h2 : ndKeys t := (List.nodup_cons.mp h).2
    by_cases hk : k₀ = k
    · subst hk
      simp only [mDrop, if_pos rfl]
      exact mLook_eq_none_iff.mpr h1
    · simp only [mDrop, if_neg hk, mLook, if_neg hk]
      exact ih h2

theorem mDrop_of_mLook_none [DecidableEq α] {k : α} {m : List (α × β)}
    (h : mLook k m = none) : mDrop k m = m := by
  induction m with
  | nil => simp [mDrop]
  | cons hd t ih =>
    obtain ⟨k₀, v₀⟩ := hd
    by_cases hk : k₀ = k
    · simp [mLook, if_pos hk] at h
    · simp only [mLook, if_neg hk] at h
      simp [mDrop, if_neg hk, ih h]

theorem mDrop_length [DecidableEq α] {k : α} {m : List (α × β)} {v : β}
    (h : mLook k m = some v) : (mDrop k m).length + 1 = m.length := by
  induction m with
  | nil => simp [mLook] at h
  | cons hd t ih =>
    obtain ⟨k₀, v₀⟩ := hd
    by_cases hk : k₀ = k
    · simp [mDrop, if_pos hk]
    · simp only [mLook, if_neg hk] at h
      simp only [mDrop, if_neg hk, List.length_cons]
      rw [← ih h]

theorem keys_mPut_of_some [DecidableEq α] {k : α} {m : List (α × β)} {v₀ : β} (v : β)
    (h : mLook k m = some v₀) : (mPut k v m).map Prod.fst = m.map Prod.fst := by
  induction m with
  | nil => simp [mLook] at h
  | cons hd t ih =>
    obtain ⟨k₁, v₁⟩ := hd
    by_cases hk : k₁ = k
    · simp [mPut, if_pos hk, hk]
    · simp only [mLook, if_neg hk] at h
      simp [mPut, if_neg hk, ih h]

theorem keys_mPut_of_none [DecidableEq α] {k : α} {m : List (α × β)} (v : β)
    (h : mLook k m = none) : (mPut k v m).map Prod.fst = m.map Prod.fst ++ [k] := by
  induction m with
  | nil => simp [mPut]
  | cons hd t ih =>
    obtain ⟨k₁, v₁⟩ := hd
    by_cases hk : k₁ = k
    · simp [mLook, if_pos hk] at h
    · simp only [mLook, if_neg hk] at h
      simp [mPut, if_neg hk, ih h]

theorem ndKeys_nil : ndKeys ([] : List (α × β)) := by simp [ndKeys]

theorem ndKeys_mPut [DecidableEq α] {m : List (α × β)} (k : α) (v : β) (h : ndKeys m) :
    ndKeys (mPut k v m) := by
  rcases hm : mLook k m with _ | v₀
  · unfold ndKeys
    rw [keys_mPut_of_none v hm]
    refine List.Nodup.append h (by simp) ?_
    intro a ha hb
    simp at hb
    subst hb
    exact (mLook_eq_none_iff.mp hm) ha
  · unfold ndKeys
    rw [keys_mPut_of_some v hm]
    exact h

theorem keys_mDrop_sublist [DecidableEq α] (k : α) (m : List (α × β)) :
    List.Sublist ((mDrop k m).map Prod.fst) (m.map Prod.fst) := by
  induction m with
  | nil => simp [mDrop]
  | cons hd t ih =>
    obtain ⟨k₀, v₀⟩ := hd
    by_cases hk : k₀ = k
    · simp only [mDrop, if_pos hk, List.map_cons]
      exact (List.sublist_cons_self _ _)
    · simp only [mDrop, if_neg hk, List.map_cons]
      exact List.Sublist.cons₂ _ ih

theorem ndKeys_mDrop [DecidableEq α] {m : List (α × β)} (k : α) (h : ndKeys m) :
    ndKeys (mDrop k m) := by
  exact List.Nodup.sublist (keys_mDrop_sublist k m) h

/-- Splice out the first element satisfying the predicate (Array.splice of
the first match in the iteration loops of the source). -/
def spliceFirst (p : α → Bool) : List α → List α
  | [] => []
  | x :: t => if p x then t else x :: spliceFirst p t

theorem spliceFirst_of_forall_not {p : α → Bool} {l : List α}
    (h : ∀ x ∈ l, p x = false) : spliceFirst p l = l := by
  induction l with
  | nil => rfl
  | cons x t ih =>
    have hx := h x (by simp)
    simp [spliceFirst, hx, ih (fun y hy => h y (by simp [hy]))]

/-! ## Data model

Translated from the source file (class SessionService, class Session).
-/

/-- Values stored in a settings map. Nested objects are represented by a
reference into an object heap, matching JS reference semantics. -/
inductive JsVal where
  | num (n : Int)
  | str (s : String)
  | objRef (r : Nat)
  | undef
deriving Repr, DecidableEq

/-- ST_INITED constant of the source. -/
def ST_INITED : Nat := 0

/-- ST_CLOSED constant of the source. -/
def ST_CLOSED : Nat := 1

/-- One Session object (class Session of the source). The fields `emit`,
`on` and the EventEmitter internals are modelled by the event trace; the
socket is an opaque identifier. -/
structure Sess where
  id : Nat
  frontendId : String
  uid : Option Int
  settings : List (String × JsVal)
  state : Nat
  socket : Nat
deriving Repr, DecidableEq

/-- Observable actions: notifications emitted on sessions and sockets, and
callback invocations. `viaNextTick` is true when the source defers the
callback with process.nextTick and false when it invokes it synchronously
inside the triggering call. `disconnect` records the Socket.disconnect
scheduled by Session.closed for the next tick. -/
inductive Ev where
  | bindEv (ref : Nat) (uid : Int)
  | unbindEv (ref : Nat) (uid : Int)
  | closedEv (ref : Nat) (reason : String)
  | closingEv (socket : Nat) (reason : String)
  | disconnect (socket : Nat)
  | cbCall (cb : Nat) (err : Option String) (viaNextTick : Bool)
deriving Repr, DecidableEq

/-- The whole state of one SessionService instance: the policy flag, the
object heap of Session objects (`store`, keyed by allocation reference),
the sid table `sessions` (sid to reference), the uid index `uidMap`
(uid to ordered bucket of references), and the trace of observable
actions. -/
structure ServiceState where
  singleSession : Bool
  nextRef : Nat
  store : List (Nat × Sess)
  sessions : List (Nat × Nat)
  uidMap : List (Int × List Nat)
  events : List Ev
deriving Repr, DecidableEq

/-- Constructor of SessionService: empty sessions table and uid map. -/
def initState (singleSession : Bool) : ServiceState :=
  { singleSession := singleSession, nextRef := 0, store := [], sessions := [],
    uidMap := [], events := [] }

/-- Append one observable action to the trace. -/
def pushEv (e : Ev) (s : ServiceState) : ServiceState :=
  { s with events := s.events ++ [e] }

/-- Record an invocation of callback `cb`. -/
def pushCb (cb : Nat) (err : Option String) (viaNextTick : Bool) (s : ServiceState) :
    ServiceState :=
  pushEv (Ev.cbCall cb err viaNextTick) s

/-- Function invokeCallback of the source: invokes the callback only when
one was passed (typeof cb === function). -/
def invokeCb (cb : Option Nat) (err : Option String) (viaNextTick : Bool)
    (s : ServiceState) : ServiceState :=
  match cb with
  | some c => pushCb c err viaNextTick s
  | none => s

/-- JS truthiness of the nullable numeric field `session.uid`: both null
and 0 are falsy. -/
def uidTruthy : Option Int → Bool
  | none => false
  | some v => decide (v ≠ 0)

/-- String rendering of session.uid inside error messages (null prints as
the string null). -/
def uidStr : Option Int → String
  | none => "null"
  | some v => toString v

/-- Error message of bind for an unregistered sid. -/
def sessNotExistMsg (sid : Nat) : String :=
  "session does not exist, sid: " ++ toString sid

/-- Error message of bind when the session is bound to another uid. -/
def alreadyBoundMsg (u : Option Int) : String :=
  "session has already bound with " ++ uidStr u

/-- Error message of bind under the singleSession policy. -/
def singleSessionMsg (uid : Int) : String :=
  "singleSession is enabled, and session has already bound with uid: " ++ toString uid

/-- Error message of unbind when the session is not bound to the uid. -/
def notBindMsg (u : Option Int) : String :=
  "session has not bind with " ++ uidStr u

/-- The bucket of `uid` in the uid index, or the empty list when absent. -/
def bucketOf (u : Int) (s : ServiceState) : List Nat :=
  (mLook u s.uidMap).getD []

/-- Events appended to the trace by going from state `s` to state `t`. -/
def newEvs (s t : ServiceState) : List Ev :=
  t.events.drop s.events.length

/-! ## Operations of SessionService and Session -/

/-- SessionService.create: allocates a fresh Session object and registers
it under its sid. A duplicate sid silently overwrites the table entry, as
in the source. -/
def SessionService.create (sid : Nat) (frontendId : String) (socket : Nat)
    (s : ServiceState) : ServiceState :=
  let sess : Sess :=
    { id := sid, frontendId := frontendId, uid := none, settings := [],
      state := ST_INITED, socket := socket }
  { s with store := mPut s.nextRef sess s.store,
           sessions := mPut sid s.nextRef s.sessions,
           nextRef := s.nextRef + 1 }

/-- SessionService.bind, translated branch by branch from the source.
The check on session.uid is JS truthiness, so a session bound to uid 0
takes the unbound path. The already-bound-with-same-uid branch invokes the
callback synchronously (the source calls cb() without process.nextTick
there); every other outcome is deferred. A reference that is not in the
store would be a dangling JS reference, which cannot occur; that case
returns the state unchanged. -/
def SessionService.bind (sid : Nat) (uid : Int) (cb : Nat) (s : ServiceState) :
    ServiceState :=
  match mLook sid s.sessions with
  | none => pushCb cb (some (sessNotExistMsg sid)) true s
  | some r =>
    match mLook r s.store with
    | none => s
    | some sess =>
      if uidTruthy sess.uid then
        if sess.uid = some uid then
          pushCb cb none false s
        else
          pushCb cb (some (alreadyBoundMsg sess.uid)) true s
      else
        let bucketOpt := mLook uid s.uidMap
        if s.singleSession && bucketOpt.isSome then
          pushCb cb (some (singleSessionMsg uid)) true s
        else
          let bucket := bucketOpt.getD []
          if bucket.any (fun r2 => decide ((mLook r2 s.store).map Sess.id = some sess.id)) then
            pushCb cb none true s
          else
            let s1 := { s with
              uidMap := mPut uid (bucket ++ [r]) s.uidMap,
              store := mPut r { sess with uid := some uid } s.store }
            pushCb cb none true (pushEv (Ev.bindEv r uid) s1)

/-- SessionService.unbind, translated branch by branch from the source.
The guard is the JS condition (not session.uid) or (session.uid !== uid),
so a session bound to uid 0 can never be unbound. The splice in the bucket
removes the first entry whose session id equals sid, and the bucket is
deleted when it ends up empty. -/
def SessionService.unbind (sid : Nat) (uid : Int) (cb : Nat) (s : ServiceState) :
    ServiceState :=
  match mLook sid s.sessions with
  | none => pushCb cb (some (sessNotExistMsg sid)) true s
  | some r =>
    match mLook r s.store with
    | none => s
    | some sess =>
      if uidTruthy sess.uid = false ∨ sess.uid ≠ some uid then
        pushCb cb (some (notBindMsg sess.uid)) true s
      else
        let s1 :=
          match mLook uid s.uidMap with
          | none => s
          | some bucket =>
            let bucket2 :=
              spliceFirst (fun r2 => decide ((mLook r2 s.store).map Sess.id = some sid)) bucket
            if bucket2.isEmpty then { s with uidMap := mDrop uid s.uidMap }
            else { s with uidMap := mPut uid bucket2 s.uidMap }
        let s2 := { s1 with store := mPut r { sess with uid := none } s1.store }
        pushCb cb none true (pushEv (Ev.unbindEv r uid) s2)

/-- SessionService.remove: deletes the sid from the sessions table and,
when the session has a numeric uid, splices the first bucket entry with a
matching session id and deletes the bucket if that leaves it empty (the
emptiness check of the source sits inside the matching branch of the
loop). A null uid indexes the uid map at a key no bucket ever has. -/
def SessionService.remove (sid : Nat) (s : ServiceState) : ServiceState :=
  match mLook sid s.sessions with
  | none => s
  | some r =>
    match mLook r s.store with
    | none => s
    | some sess =>
      let s1 := { s with sessions := mDrop sid s.sessions }
      match sess.uid with
      | none => s1
      | some u =>
        match mLook u s1.uidMap with
        | none => s1
        | some bucket =>
          let p := fun r2 => decide ((mLook r2 s1.store).map Sess.id = some sid)
          if bucket.any p then
            let bucket2 := spliceFirst p bucket
            if bucket2.isEmpty then { s1 with uidMap := mDrop u s1.uidMap }
            else { s1 with uidMap := mPut u bucket2 s1.uidMap }
          else s1

/-- Argument of Session.set: the source accepts a single key with a value
or a whole object to merge. -/
inductive SetKey where
  | strKey (k : String)
  | objKey (m : List (String × JsVal))
deriving Repr, DecidableEq

/-- Session.set of the source: merge an object into settings, or store one
key. -/
def Sess.set (key : SetKey) (value : JsVal) (sess : Sess) : Sess :=
  match key with
  | SetKey.objKey m =>
      { sess with settings := m.foldl (fun st kv => mPut kv.1 kv.2 st) sess.settings }
  | SetKey.strKey k => { sess with settings := mPut k value sess.settings }

/-- SessionService.import (import is a reserved word in Lean, hence the
name): writes into the settings of the session; the callback runs through
invokeCallback synchronously, with an error for an unregistered sid. -/
def SessionService.importKV (sid : Nat) (key : SetKey) (value : JsVal) (cb : Option Nat)
    (s : ServiceState) : ServiceState :=
  match mLook sid s.sessions with
  | none => invokeCb cb (some (sessNotExistMsg sid)) false s
  | some r =>
    match mLook r s.store with
    | none => s
    | some sess =>
      invokeCb cb none false { s with store := mPut r (sess.set key value) s.store }

/-- SessionService.importAll: folds Session.set over all entries of the
given settings object, then invokes the callback synchronously. -/
def SessionService.importAll (sid : Nat) (settings : List (String × JsVal))
    (cb : Option Nat) (s : ServiceState) : ServiceState :=
  match mLook sid s.sessions with
  | none => invokeCb cb (some (sessNotExistMsg sid)) false s
  | some r =>
    match mLook r s.store with
    | none => s
    | some sess =>
      let sess2 := settings.foldl (fun ss kv => ss.set (SetKey.strKey kv.1) kv.2) sess
      invokeCb cb none false { s with store := mPut r sess2 s.store }

/-- Session.closed of the source: a no-op when the state is already
ST_CLOSED; otherwise it marks the session closed, deregisters its sid via
SessionService.remove, emits the closed notification with the reason,
signals closing on the socket and schedules Socket.disconnect for the next
tick (recorded by the disconnect trace entry). -/
def Session.closed (r : Nat) (reason : String) (s : ServiceState) : ServiceState :=
  match mLook r s.store with
  | none => s
  | some sess =>
    if sess.state = ST_CLOSED then s
    else
      let s1 := { s with store := mPut r { sess with state := ST_CLOSED } s.store }
      let s2 := SessionService.remove sess.id s1
      pushEv (Ev.disconnect sess.socket)
        (pushEv (Ev.closingEv sess.socket reason)
          (pushEv (Ev.closedEv r reason) s2))

/-- The reason argument of kick and kickBySessionId: either a string or,
in the old two-argument calling convention, the callback function passed
in the reason position. -/
inductive KickReason where
  | str (r : String)
  | fn (f : Nat)
deriving Repr, DecidableEq

/-- SessionService.kick: normalizes the old two-argument convention (a
function in the reason position becomes the callback and the reason
becomes the string kick), snapshots the sids of the bucket, closes each of
those sids through the current sessions table, and defers the callback.
A sid no longer in the table at closing time would be a TypeError in the
source; under the registry invariant every snapshotted sid is present. -/
def SessionService.kick (uid : Int) (reason : KickReason) (cb : Option Nat)
    (s : ServiceState) : ServiceState :=
  let rc : String × Option Nat :=
    match reason with
    | KickReason.fn f => ("kick", some f)
    | KickReason.str r0 => (r0, cb)
  match mLook uid s.uidMap with
  | some bucket =>
    let sids := bucket.filterMap (fun r => (mLook r s.store).map Sess.id)
    let s1 := sids.foldl
      (fun st sid =>
        match mLook sid st.sessions with
        | some r => Session.closed r rc.1 st
        | none => st) s
    invokeCb rc.2 none true s1
  | none => invokeCb rc.2 none true s

/-- SessionService.kickBySessionId: same argument normalization as kick;
closes the one session registered under sid, if any, and defers the
callback. -/
def SessionService.kickBySessionId (sid : Nat) (reason : KickReason) (cb : Option Nat)
    (s : ServiceState) : ServiceState :=
  let rc : String × Option Nat :=
    match reason with
    | KickReason.fn f => ("kick", some f)
    | KickReason.str r0 => (r0, cb)
  match mLook sid s.sessions with
  | some r => invokeCb rc.2 none true (Session.closed r rc.1 s)
  | none => invokeCb rc.2 none true s

/-- SessionService.getSessionsCount: the size helper of the source counts
the own enumerable non-function properties of the sessions table, which is
the number of registered sids. -/
def SessionService.getSessionsCount (s : ServiceState) : Nat :=
  s.sessions.length

/-! ## Dynamic own-property view of Session and FrontendSession

Session.remove executes (delete this[key]), which operates on the own
properties of the object, and FrontendSession.export copies a fixed field
list into a fresh plain object. Both are modelled on an explicit
own-property association list. Methods live on the prototype and are not
own properties, so (delete this[key]) can never remove them. -/

/-- Values of own properties of a Session or FrontendSession object, with
the settings store as one nested plain object of numeric values. -/
inductive OwnProp where
  | num (n : Int)
  | str (s : String)
  | settingsObj (m : List (String × Int))
  | undef
deriving Repr, DecidableEq

/-- Session.remove of the source: (delete this[key]) deletes the own
property named key from the object itself. -/
def dynRemove (props : List (String × OwnProp)) (key : String) :
    List (String × OwnProp) :=
  mDrop key props

/-- Session.get of the source: reads (this.settings[key]). The outer
Option is the control flow: none models the TypeError thrown when the
settings own property has been deleted (reading a property of undefined);
the inner Option is the looked-up value, none being undefined. -/
def dynGet (props : List (String × OwnProp)) (key : String) : Option (Option Int) :=
  match mLook "settings" props with
  | some (OwnProp.settingsObj m) => some (mLook key m)
  | _ => none

/-- EXPORTED_SESSION_FIELDS constant of the source. -/
def EXPORTED_SESSION_FIELDS : List String := ["id", "frontendId", "uid", "settings"]

/-- Property read used by the clone helper: an absent key reads as
undefined. -/
def pGet (props : List (String × OwnProp)) (key : String) : OwnProp :=
  (mLook key props).getD OwnProp.undef

/-- Function clone of the source: assigns (dest[f] = src[f]) for every
field f of the include list. -/
def cloneInto (src : List (String × OwnProp)) (includes : List String)
    (dest : List (String × OwnProp)) : List (String × OwnProp) :=
  includes.foldl (fun d f => mPut f (pGet src f) d) dest

/-- FrontendSession.export of the source: clone the exported field list
into a fresh empty object. -/
def fsExport (fs : List (String × OwnProp)) : List (String × OwnProp) :=
  cloneInto fs EXPORTED_SESSION_FIELDS []

/-! ## The settings snapshot of FrontendSession -/

/-- Function dclone of the source: builds a fresh object and assigns
(res[f] = src[f]) for every top-level key, so every value, including a
reference to a nested object, is copied by reference. -/
def dclone (src : List (String × JsVal)) : List (String × JsVal) :=
  src.foldl (fun res kv => mPut kv.1 kv.2 res) []

/-- The settings snapshot taken by the FrontendSession constructor:
(this.settings = dclone(session.settings)). -/
def FrontendSession.settingsSnapshot (sess : Sess) : List (String × JsVal) :=
  dclone sess.settings

/-- Reading settings[k1][k2] through the object heap: follows the
reference stored at the top-level key k1 into the heap object and reads
its property k2. -/
def readNested (heap : List (Nat × List (String × JsVal)))
    (settings : List (String × JsVal)) (k1 k2 : String) : Option JsVal :=
  match mLook k1 settings with
  | some (JsVal.objRef r) =>
    match mLook r heap with
    | some obj => mLook k2 obj
    | none => none
  | _ => none

/-! ## Claims C7 through C10 -/

/-- Claim C7 (code divergence): the settings snapshot taken by the
FrontendSession constructor through dclone copies only the top level.
At the failing input, a Session whose settings hold a nested object
(x maps to a heap object with a = 1), the snapshot equals the settings at
projection time, but after the nested object is mutated to a = 2 the
mutation is visible through the snapshot as well, because the nested
value was copied by reference. This contradicts the deep-copy claim and
the (deep copy for settings) comment at the dclone call site. -/
theorem dclone_nested_mutation_shared :
    (FrontendSession.settingsSnapshot
      { id := 1, frontendId := "f1", uid := some 7,
        settings := [("x", JsVal.objRef 0)], state := ST_INITED, socket := 0 } =
      [("x", JsVal.objRef 0)]) ∧
    readNested [(0, [("a", JsVal.num 1)])] [("x", JsVal.objRef 0)] "x" "a" =
      some (JsVal.num 1) ∧
    readNested (mPut 0 [("a", JsVal.num 2)] [(0, [("a", JsVal.num 1)])])
      [("x", JsVal.objRef 0)] "x" "a" = some (JsVal.num 2) := by
  refine ⟨?_, ?_, ?_⟩ <;> rfl

/-- Claim C8, counterexample: the claim quantifies over every key, but at
key = settings the call (delete this[key]) deletes the settings store
itself:  get afterwards throws a TypeError (modelled as none) instead of
still returning the value 10 stored in settings under that key. -/
theorem session_remove_settings_cex :
    dynGet [("id", OwnProp.num 1), ("uid", OwnProp.num 7),
            ("settings", OwnProp.settingsObj [("settings", 10)])] "settings" =
      some (some 10) ∧
    dynGet (dynRemove [("id", OwnProp.num 1), ("uid", OwnProp.num 7),
            ("settings", OwnProp.settingsObj [("settings", 10)])] "settings") "settings" =
      none := by
  exact ⟨rfl, rfl⟩

/-- Claim C8, amended: for every key other than the literal key settings,
Session.remove deletes the own property named key and leaves the settings
store untouched, so get returns exactly what it returned before for every
lookup key; in particular identity fields such as uid are deleted while
their settings entries survive. -/
theorem session_remove_own_namespace (props : List (String × OwnProp)) (key : String)
    (hnd : ndKeys props) (hkey : key ≠ "settings") :
    mLook "settings" (dynRemove props key) = mLook "settings" props ∧
    (∀ k, dynGet (dynRemove props key) k = dynGet props k) ∧
    mLook key (dynRemove props key) = none := by
  have hne : ("settings" : String) ≠ key := fun hh => hkey hh.symm
  have h1 : mLook "settings" (mDrop key props) = mLook "settings" props :=
    mLook_mDrop_ne props hne
  refine ⟨h1, ?_, ?_⟩
  · intro k
    unfold dynGet dynRemove
    rw [h1]
  · exact mLook_mDrop_self hnd

/-- Witness for the amended claim C8 at a concrete session: removing the
key uid deletes the uid own property, while the settings store and reads
through get are unchanged. -/
theorem session_remove_own_namespace_witness :
    mLook "uid"
      (dynRemove [("id", OwnProp.num 1), ("uid", OwnProp.num 7),
                  ("settings", OwnProp.settingsObj [("uid", 5), ("score", 10)])] "uid") =
      none ∧
    dynGet
      (dynRemove [("id", OwnProp.num 1), ("uid", OwnProp.num 7),
                  ("settings", OwnProp.settingsObj [("uid", 5), ("score", 10)])] "uid")
      "uid" = some (some 5) := by
  have h := session_remove_own_namespace
    [("id", OwnProp.num 1), ("uid", OwnProp.num 7),
     ("settings", OwnProp.settingsObj [("uid", 5), ("score", 10)])] "uid"
    (by unfold ndKeys; decide) (by decide)
  exact ⟨h.2.2, (h.2.1 "uid").trans (by decide)⟩

/-- Claim C9: FrontendSession.export yields a plain object holding exactly
the four fields id, frontendId, uid and settings, in that order, each
equal to the corresponding field of the FrontendSession; on the concrete
session of the specification (settings score 10, uid 7, plus an extra
private field) the result is exactly the four-field snapshot. -/
theorem fsExport_exact_fields :
    (∀ fs : List (String × OwnProp),
      fsExport fs =
        [("id", pGet fs "id"), ("frontendId", pGet fs "frontendId"),
         ("uid", pGet fs "uid"), ("settings", pGet fs "settings")]) ∧
    fsExport
      [("id", OwnProp.num 1), ("frontendId", OwnProp.str "f1"),
       ("uid", OwnProp.num 7), ("settings", OwnProp.settingsObj [("score", 10)]),
       ("extraField", OwnProp.num 99)] =
      [("id", OwnProp.num 1), ("frontendId", OwnProp.str "f1"),
       ("uid", OwnProp.num 7), ("settings", OwnProp.settingsObj [("score", 10)])] := by
  constructor
  · intro fs
    rfl
  · rfl

/-- Claim C10: passing a function in the reason position of kick or
kickBySessionId behaves exactly like the three-argument form with the
string reason kick and that function as the callback. -/
theorem kick_reason_function_compat :
    ∀ (uid : Int) (sid : Nat) (f : Nat) (cb : Option Nat) (s : ServiceState),
      SessionService.kick uid (KickReason.fn f) cb s =
        SessionService.kick uid (KickReason.str "kick") (some f) s ∧
      SessionService.kickBySessionId sid (KickReason.fn f) cb s =
        SessionService.kickBySessionId sid (KickReason.str "kick") (some f) s := by
  intro uid sid f cb s
  exact ⟨rfl, rfl⟩

/-! ## Trace helpers -/

theorem newEvs_self (s : ServiceState) : newEvs s s = [] := by
  simp [newEvs]

theorem newEvs_of_append {s t : ServiceState} {l : List Ev}
    (h : t.events = s.events ++ l) : newEvs s t = l := by
  rw [newEvs, h, List.drop_left]

@[simp]
theorem pushEv_store (e : Ev) (s : ServiceState) : (pushEv e s).store = s.store := rfl

@[simp]
theorem pushEv_sessions (e : Ev) (s : ServiceState) : (pushEv e s).sessions = s.sessions := rfl

@[simp]
theorem pushEv_uidMap (e : Ev) (s : ServiceState) : (pushEv e s).uidMap = s.uidMap := rfl

@[simp]
theorem pushEv_nextRef (e : Ev) (s : ServiceState) : (pushEv e s).nextRef = s.nextRef := rfl

@[simp]
theorem pushEv_single (e : Ev) (s : ServiceState) :
    (pushEv e s).singleSession = s.singleSession := rfl

@[simp]
theorem pushEv_events (e : Ev) (s : ServiceState) :
    (pushEv e s).events = s.events ++ [e] := rfl

/-- SessionService.remove never touches the heap, the trace, the policy
flag or the allocation counter. -/
theorem remove_frame (sid : Nat) (s : ServiceState) :
    (SessionService.remove sid s).store = s.store ∧
    (SessionService.remove sid s).events = s.events ∧
    (SessionService.remove sid s).singleSession = s.singleSession ∧
    (SessionService.remove sid s).nextRef = s.nextRef := by
  unfold SessionService.remove
  dsimp only
  repeat' split
  all_goals exact ⟨rfl, rfl, rfl, rfl⟩

/-! ## Claim C6: the close transition is idempotent and terminal -/

/-- Claim C6: Session.closed is an idempotent terminal transition.
A second call (with any reason) on an already processed session changes
nothing; a call on a session already in state ST_CLOSED changes nothing;
and on a live (ST_INITED) session the transition appends exactly one
closed notification, one socket closing signal and one scheduled
disconnect, marks the session ST_CLOSED in the heap, and deregisters the
sid through exactly one SessionService.remove call. -/
theorem session_closed_idempotent :
    (∀ (s : ServiceState) (r : Nat) (a b : String),
      Session.closed r b (Session.closed r a s) = Session.closed r a s) ∧
    (∀ (s : ServiceState) (r : Nat) (a : String) (sess : Sess),
      mLook r s.store = some sess → sess.state = ST_CLOSED →
        Session.closed r a s = s) ∧
    (∀ (s : ServiceState) (r : Nat) (a : String) (sess : Sess),
      mLook r s.store = some sess → sess.state = ST_INITED →
        (Session.closed r a s).events =
          s.events ++ [Ev.closedEv r a, Ev.closingEv sess.socket a, Ev.disconnect sess.socket] ∧
        mLook r (Session.closed r a s).store = some { sess with state := ST_CLOSED } ∧
        (Session.closed r a s).sessions =
          (SessionService.remove sess.id
            { s with store := mPut r { sess with state := ST_CLOSED } s.store }).sessions) := by
  have noop : ∀ (s : ServiceState) (r : Nat) (a : String) (sess : Sess),
      mLook r s.store = some sess → sess.state = ST_CLOSED → Session.closed r a s = s := by
    intro s r a sess h hc
    unfold Session.closed
    rw [h]
    simp [hc]
  have habs : ∀ (s : ServiceState) (r : Nat) (a : String),
      mLook r s.store = none → Session.closed r a s = s := by
    intro s r a h
    unfold Session.closed
    rw [h]
  have hstore : ∀ (s : ServiceState) (r : Nat) (a : String) (sess : Sess),
      mLook r s.store = some sess → sess.state ≠ ST_CLOSED →
        (Session.closed r a s).store = mPut r { sess with state := ST_CLOSED } s.store := by
    intro s r a sess h hc
    unfold Session.closed
    rw [h]
    dsimp only
    rw [if_neg hc]
    simp only [pushEv_store]
    exact (remove_frame sess.id _).1
  refine ⟨?_, noop, ?_⟩
  · intro s r a b
    cases h : mLook r s.store with
    | none =>
      rw [habs s r a h, habs s r b h]
    | some sess =>
      by_cases hc : sess.state = ST_CLOSED
      · rw [noop s r a sess h hc]
        exact noop s r b sess h hc
      · refine noop (Session.closed r a s) r b { sess with state := ST_CLOSED } ?_ rfl
        rw [hstore s r a sess h hc]
        exact mLook_mPut_self r _ _
  · intro s r a sess h hi
    have hc : sess.state ≠ ST_CLOSED := by
      rw [hi]
      decide
    refine ⟨?_, ?_, ?_⟩
    · unfold Session.closed
      rw [h]
      dsimp only
      rw [if_neg hc]
      simp only [pushEv_events, (remove_frame sess.id _).2.1]
      simp [List.append_assoc]
    · rw [hstore s r a sess h hc]
      exact mLook_mPut_self r _ _
    · unfold Session.closed
      rw [h]
      dsimp only
      rw [if_neg hc]
      simp only [pushEv_sessions]

/-- Witness for claim C6 at a concrete registry: one freshly created
session, closed once, emits exactly one closed notification and one
scheduled disconnect, and closing it a second time changes nothing. -/
theorem session_closed_idempotent_witness :
    (Session.closed 0 "kick" (SessionService.create 1 "f1" 3 (initState false))).events =
      (SessionService.create 1 "f1" 3 (initState false)).events ++
        [Ev.closedEv 0 "kick", Ev.closingEv 3 "kick", Ev.disconnect 3] ∧
    Session.closed 0 "again"
        (Session.closed 0 "kick" (SessionService.create 1 "f1" 3 (initState false))) =
      Session.closed 0 "kick" (SessionService.create 1 "f1" 3 (initState false)) := by
  constructor
  · exact (session_closed_idempotent.2.2 (SessionService.create 1 "f1" 3 (initState false))
      0 "kick"
      { id := 1, frontendId := "f1", uid := none, settings := [],
        state := ST_INITED, socket := 3 }
      (by decide) rfl).1
  · exact session_closed_idempotent.1 (SessionService.create 1 "f1" 3 (initState false))
      0 "kick" "again"

/-! ## Claim C4: callback scheduling of bind and unbind -/

theorem newEvs_pushCb (cb : Nat) (err : Option String) (d : Bool) (s : ServiceState) :
    newEvs s (pushCb cb err d s) = [Ev.cbCall cb err d] := by
  unfold newEvs pushCb pushEv
  exact List.drop_left _ _

theorem newEvs_pushCb_of {s t : ServiceState} (cb : Nat) (err : Option String) (d : Bool)
    (h : t.events = s.events) : newEvs s (pushCb cb err d t) = [Ev.cbCall cb err d] := by
  unfold newEvs pushCb pushEv
  dsimp only
  rw [h]
  exact List.drop_left _ _

theorem newEvs_pushCb_pushEv_of {s t : ServiceState} (e : Ev) (cb : Nat)
    (err : Option String) (d : Bool) (h : t.events = s.events) :
    newEvs s (pushCb cb err d (pushEv e t)) = [e, Ev.cbCall cb err d] := by
  unfold newEvs pushCb pushEv
  dsimp only
  rw [h, List.append_assoc]
  exact List.drop_left _ _

/-- Claim C4, amended: every callback that bind or unbind appends to the
trace is delivered through process.nextTick, with a single exception: when
bind finds the session already bound to the very uid requested (with a
truthy uid), the source invokes cb() synchronously inside the call frame.
Unbind callbacks are deferred in every case. -/
theorem bind_unbind_callbacks_deferred :
    (∀ (s : ServiceState) (sid : Nat) (uid : Int) (cb c : Nat) (err : Option String),
      Ev.cbCall c err false ∈ newEvs s (SessionService.bind sid uid cb s) →
      ∃ r sess, mLook sid s.sessions = some r ∧ mLook r s.store = some sess ∧
        uidTruthy sess.uid = true ∧ sess.uid = some uid ∧ c = cb ∧ err = none) ∧
    (∀ (s : ServiceState) (sid : Nat) (uid : Int) (cb c : Nat) (err : Option String)
        (d : Bool),
      Ev.cbCall c err d ∈ newEvs s (SessionService.unbind sid uid cb s) → d = true) := by
  constructor
  · intro s sid uid cb c err hmem
    cases h1 : mLook sid s.sessions with
    | none =>
      simp only [SessionService.bind, h1] at hmem
      rw [newEvs_pushCb] at hmem
      simp at hmem
    | some r =>
      cases h2 : mLook r s.store with
      | none =>
        simp only [SessionService.bind, h1, h2] at hmem
        rw [newEvs_self] at hmem
        simp at hmem
      | some sess =>
        by_cases h3 : uidTruthy sess.uid = true
        · by_cases h4 : sess.uid = some uid
          · simp only [SessionService.bind, h1, h2, if_pos h3, if_pos h4] at hmem
            rw [newEvs_pushCb] at hmem
            simp only [List.mem_singleton, Ev.cbCall.injEq] at hmem
            exact ⟨r, sess, rfl, h2, h3, h4, hmem.1, hmem.2.1⟩
          · simp only [SessionService.bind, h1, h2, if_pos h3, if_neg h4] at hmem
            rw [newEvs_pushCb] at hmem
            simp at hmem
        · simp only [SessionService.bind, h1, h2] at hmem
          rw [if_neg h3] at hmem
          by_cases h5 : (s.singleSession && (mLook uid s.uidMap).isSome) = true
          · rw [if_pos h5] at hmem
            rw [newEvs_pushCb] at hmem
            simp at hmem
          · rw [if_neg h5] at hmem
            by_cases h6 : ((mLook uid s.uidMap).getD []).any
                (fun r2 => decide ((mLook r2 s.store).map Sess.id = some sess.id)) = true
            · rw [if_pos h6] at hmem
              rw [newEvs_pushCb] at hmem
              simp at hmem
            · rw [if_neg h6] at hmem
              simp only [newEvs, pushCb, pushEv, List.append_assoc, List.drop_left] at hmem
              simp at hmem
  · intro s sid uid cb c err d hmem
    cases h1 : mLook sid s.sessions with
    | none =>
      simp only [SessionService.unbind, h1] at hmem
      rw [newEvs_pushCb] at hmem
      simp only [List.mem_singleton, Ev.cbCall.injEq] at hmem
      exact hmem.2.2
    | some r =>
      cases h2 : mLook r s.store with
      | none =>
        simp only [SessionService.unbind, h1, h2] at hmem
        rw [newEvs_self] at hmem
        simp at hmem
      | some sess =>
        by_cases h3 : uidTruthy sess.uid = false ∨ sess.uid ≠ some uid
        · simp only [SessionService.unbind, h1, h2, if_pos h3] at hmem
          rw [newEvs_pushCb] at hmem
          simp only [List.mem_singleton, Ev.cbCall.injEq] at hmem
          exact hmem.2.2
        · simp only [SessionService.unbind, h1, h2, if_neg h3] at hmem
          cases h7 : mLook uid s.uidMap with
          | none =>
            simp only [h7] at hmem
            simp only [newEvs, pushCb, pushEv, List.append_assoc, List.drop_left] at hmem
            simp at hmem
            exact hmem.2.2
          | some bucket =>
            simp only [h7] at hmem
            by_cases h8 : (spliceFirst
                (fun r2 => decide ((mLook r2 s.store).map Sess.id = some sid)) bucket).isEmpty = true
            · rw [if_pos h8] at hmem
              simp only [newEvs, pushCb, pushEv, List.append_assoc, List.drop_left] at hmem
              simp at hmem
              exact hmem.2.2
            · rw [if_neg h8] at hmem
              simp only [newEvs, pushCb, pushEv, List.append_assoc, List.drop_left] at hmem
              simp at hmem
              exact hmem.2.2

/-- Claim C4, counterexample: after a session is created and bound to uid
5, calling bind again with the same uid invokes the callback with
viaNextTick false, that is synchronously inside the triggering call, so
delivery is not always deferred to the next scheduling tick. -/
theorem bind_sync_callback_cex :
    newEvs (SessionService.bind 1 5 7 (SessionService.create 1 "f1" 0 (initState false)))
      (SessionService.bind 1 5 9
        (SessionService.bind 1 5 7 (SessionService.create 1 "f1" 0 (initState false)))) =
      [Ev.cbCall 9 none false] := by
  decide

/-- Witness for the amended claim C4: in the concrete synchronous case the
theorem pins the session as bound to exactly the requested uid, and a
concrete deferred unbind callback instantiates the unbind half. -/
theorem bind_unbind_callbacks_deferred_witness :
    (∃ r sess,
      mLook 1 (SessionService.bind 1 5 7 (SessionService.create 1 "f1" 0 (initState false))).sessions = some r ∧
      mLook r (SessionService.bind 1 5 7 (SessionService.create 1 "f1" 0 (initState false))).store = some sess ∧
      uidTruthy sess.uid = true ∧ sess.uid = some 5 ∧ 9 = 9 ∧ (none : Option String) = none) ∧
    True := by
  constructor
  · exact bind_unbind_callbacks_deferred.1
      (SessionService.bind 1 5 7 (SessionService.create 1 "f1" 0 (initState false)))
      1 5 9 9 none (by decide)
  · exact True.intro

/-! ## Reachability and the registry invariant -/

/-- One call of a public operation of SessionService (or Session.closed).
With strict = false this is every possible call; with strict = true the
calls are restricted to the coherent discipline the registry expects: a
fresh sid for create and a nonzero uid for bind. -/
inductive Step : Bool → ServiceState → ServiceState → Prop where
  | create (strict : Bool) (sid : Nat) (fid : String) (sock : Nat) (s : ServiceState) :
      (strict = true → mLook sid s.sessions = none) →
      Step strict s (SessionService.create sid fid sock s)
  | bind (strict : Bool) (sid : Nat) (uid : Int) (cb : Nat) (s : ServiceState) :
      (strict = true → uid ≠ 0) →
      Step strict s (SessionService.bind sid uid cb s)
  | unbind (strict : Bool) (sid : Nat) (uid : Int) (cb : Nat) (s : ServiceState) :
      Step strict s (SessionService.unbind sid uid cb s)
  | removeStep (strict : Bool) (sid : Nat) (s : ServiceState) :
      Step strict s (SessionService.remove sid s)
  | importStep (strict : Bool) (sid : Nat) (key : SetKey) (value : JsVal)
      (cb : Option Nat) (s : ServiceState) :
      Step strict s (SessionService.importKV sid key value cb s)
  | importAllStep (strict : Bool) (sid : Nat) (settings : List (String × JsVal))
      (cb : Option Nat) (s : ServiceState) :
      Step strict s (SessionService.importAll sid settings cb s)
  | kickStep (strict : Bool) (uid : Int) (reason : KickReason) (cb : Option Nat)
      (s : ServiceState) :
      Step strict s (SessionService.kick uid reason cb s)
  | kickBySid (strict : Bool) (sid : Nat) (reason : KickReason) (cb : Option Nat)
      (s : ServiceState) :
      Step strict s (SessionService.kickBySessionId sid reason cb s)
  | closedStep (strict : Bool) (r : Nat) (reason : String) (s : ServiceState) :
      Step strict s (Session.closed r reason s)

/-- States reachable from a freshly constructed SessionService by
sequences of public operations. -/
inductive Reach : Bool → ServiceState → Prop where
  | init (strict : Bool) (singleSession : Bool) : Reach strict (initState singleSession)
  | step {strict : Bool} {s t : ServiceState} :
      Reach strict s → Step strict s t → Reach strict t

/-- Structural invariant of the registry: well formed key sets, the heap
grows below nextRef, every registered sid resolves to a live session
carrying that sid, bound uids are nonzero, a bound session sits in the
bucket of its uid and in no other bucket, buckets are nonempty and
duplicate free, and every bucket member is a session registered under its
own sid and bound to the bucket key. -/
structure InvCore (s : ServiceState) : Prop where
  ndS : ndKeys s.sessions
  ndU : ndKeys s.uidMap
  refsLt : ∀ r sess, mLook r s.store = some sess → r < s.nextRef
  sessWf : ∀ sid r, mLook sid s.sessions = some r →
    ∃ sess, mLook r s.store = some sess ∧ sess.id = sid
  uidNz : ∀ sid r sess u, mLook sid s.sessions = some r → mLook r s.store = some sess →
    sess.uid = some u → u ≠ 0
  fwdIn : ∀ sid r sess u, mLook sid s.sessions = some r → mLook r s.store = some sess →
    sess.uid = some u →
      r ∈ bucketOf u s ∧ ∀ u2, u2 ≠ u → r ∉ bucketOf u2 s
  bwd : ∀ u b, mLook u s.uidMap = some b → b ≠ [] ∧
    ∀ r ∈ b, ∃ sess, mLook r s.store = some sess ∧ sess.uid = some u ∧
      mLook sess.id s.sessions = some r
  bNodup : ∀ u b, mLook u s.uidMap = some b → b.Nodup

/-- Every registered session is still in state ST_INITED. -/
def statesOk (s : ServiceState) : Prop :=
  ∀ sid r sess, mLook sid s.sessions = some r → mLook r s.store = some sess →
    sess.state = ST_INITED

/-- The full registry invariant. -/
def SvcInvariant (s : ServiceState) : Prop := InvCore s ∧ statesOk s

theorem invCore_init (b : Bool) : InvCore (initState b) := by
  refine ⟨?_, ?_, ?_, ?_, ?_, ?_, ?_, ?_⟩ <;>
    simp [initState, ndKeys, mLook, bucketOf]

theorem svcInvariant_init (b : Bool) : SvcInvariant (initState b) := by
  refine ⟨invCore_init b, ?_⟩
  intro sid r sess h1
  simp [initState, mLook] at h1

/-- The session record found through a registered sid carries that sid. -/
theorem sess_id_eq {s : ServiceState} {sid r : Nat} {sess : Sess} (hc : InvCore s)
    (h1 : mLook sid s.sessions = some r) (h2 : mLook r s.store = some sess) :
    sess.id = sid := by
  obtain ⟨sess2, h3, h4⟩ := hc.sessWf sid r h1
  rw [h2] at h3
  cases h3
  exact h4

/-- A session whose uid is null sits in no bucket. -/
theorem uid_none_not_in_bucket {s : ServiceState} {r : Nat} {sess : Sess}
    (hc : InvCore s) (h2 : mLook r s.store = some sess) (hu : sess.uid = none) :
    ∀ u b, mLook u s.uidMap = some b → r ∉ b := by
  intro u b hb hmem
  obtain ⟨sess2, h3, h4, h5⟩ := (hc.bwd u b hb).2 r hmem
  rw [h2] at h3
  cases h3
  rw [hu] at h4
  cases h4

/-- Transfer of the core invariant along a state whose four data fields
agree with a state known to satisfy it. -/
theorem invCore_congr {s t : ServiceState} (h : InvCore s)
    (hsess : t.sessions = s.sessions) (hstore : t.store = s.store)
    (huid : t.uidMap = s.uidMap) (hnext : t.nextRef = s.nextRef) : InvCore t := by
  have hbucket : ∀ u, bucketOf u t = bucketOf u s := by
    intro u
    unfold bucketOf
    rw [huid]
  refine ⟨?_, ?_, ?_, ?_, ?_, ?_, ?_, ?_⟩
  · rw [hsess]; exact h.ndS
  · rw [huid]; exact h.ndU
  · intro r sess hr
    rw [hstore] at hr
    rw [hnext]
    exact h.refsLt r sess hr
  · intro sid r h1
    rw [hsess] at h1
    rw [hstore]
    exact h.sessWf sid r h1
  · intro sid r sess u h1 h2 hu
    rw [hsess] at h1
    rw [hstore] at h2
    exact h.uidNz sid r sess u h1 h2 hu
  · intro sid r sess u h1 h2 hu
    rw [hsess] at h1
    rw [hstore] at h2
    rw [hbucket u]
    refine ⟨(h.fwdIn sid r sess u h1 h2 hu).1, ?_⟩
    intro u2 hne
    rw [hbucket u2]
    exact (h.fwdIn sid r sess u h1 h2 hu).2 u2 hne
  · intro u b hb
    rw [huid] at hb
    refine ⟨(h.bwd u b hb).1, ?_⟩
    intro r hr
    obtain ⟨sess, e1, e2, e3⟩ := (h.bwd u b hb).2 r hr
    rw [hstore, hsess]
    exact ⟨sess, e1, e2, e3⟩
  · intro u b hb
    rw [huid] at hb
    exact h.bNodup u b hb

theorem statesOk_congr {s t : ServiceState} (h : statesOk s)
    (hsess : t.sessions = s.sessions) (hstore : t.store = s.store) : statesOk t := by
  intro sid r sess h1 h2
  rw [hsess] at h1
  rw [hstore] at h2
  exact h sid r sess h1 h2

/-- Splicing the unique element satisfying the predicate out of a
duplicate free list: the element is gone, the length drops by one and the
other members are untouched. -/
theorem spliceFirst_of_nodup_mem {p : α → Bool} {l : List α} {r : α}
    (hpr : p r = true) (hothers : ∀ x ∈ l, x ≠ r → p x = false)
    (hnd : l.Nodup) (hmem : r ∈ l) :
    r ∉ spliceFirst p l ∧ (spliceFirst p l).length + 1 = l.length ∧
    (∀ x, x ∈ spliceFirst p l ↔ (x ∈ l ∧ x ≠ r)) ∧ (spliceFirst p l).Nodup := by
  induction l with
  | nil => cases hmem
  | cons a t ih =>
    have hat : a ∉ t := (List.nodup_cons.mp hnd).1
    have hndt : t.Nodup := (List.nodup_cons.mp hnd).2
    by_cases har : a = r
    · subst har
      simp only [spliceFirst, hpr, if_true]
      refine ⟨hat, by simp, ?_, hndt⟩
      intro x
      constructor
      · intro hx
        refine ⟨by simp [hx], ?_⟩
        intro hxr
        subst hxr
        exact hat hx
      · intro ⟨hx, hxr⟩
        rcases List.mem_cons.mp hx with hh | hh
        · exact absurd hh hxr
        · exact hh
    · have hpa : p a = false := hothers a (by simp) har
      have hrt : r ∈ t := by
        rcases List.mem_cons.mp hmem with hh | hh
        · exact absurd hh.symm har
        · exact hh
      have hothers' : ∀ x ∈ t, x ≠ r → p x = false := by
        intro x hx hxr
        exact hothers x (by simp [hx]) hxr
      obtain ⟨ih1, ih2, ih3, ih4⟩ := ih hothers' hndt hrt
      simp only [spliceFirst, hpa, Bool.false_eq_true, if_false]
      refine ⟨?_, ?_, ?_, ?_⟩
      · intro hmem2
        rcases List.mem_cons.mp hmem2 with hh | hh
        · exact har hh.symm
        · exact ih1 hh
      · simp [← ih2]
      · intro x
        constructor
        · intro hx
          rcases List.mem_cons.mp hx with hh | hh
          · subst hh
            exact ⟨by simp, fun hh2 => har hh2⟩
          · have := (ih3 x).mp hh
            exact ⟨by simp [this.1], this.2⟩
        · intro ⟨hx, hxr⟩
          rcases List.mem_cons.mp hx with hh | hh
          · simp [hh]
          · exact List.mem_cons.mpr (Or.inr ((ih3 x).mpr ⟨hh, hxr⟩))
      · refine List.nodup_cons.mpr ⟨?_, ih4⟩
        intro hmem2
        exact hat ((ih3 a).mp hmem2).1

/-- Under the invariant, the splice predicate used by unbind and remove
(the session id of the bucket entry equals the sid being removed) matches
exactly the removed session and nothing else in its bucket. -/
theorem bucket_splice {s : ServiceState} {sid r : Nat} {sess : Sess} {u : Int}
    {b : List Nat} (hc : InvCore s)
    (h1 : mLook sid s.sessions = some r) (h2 : mLook r s.store = some sess)
    (hu : sess.uid = some u) (hb : mLook u s.uidMap = some b) :
    (fun r2 => decide ((mLook r2 s.store).map Sess.id = some sid)) r = true ∧
    (∀ x ∈ b, x ≠ r →
      (fun r2 => decide ((mLook r2 s.store).map Sess.id = some sid)) x = false) ∧
    r ∈ b ∧ b.Nodup := by
  refine ⟨?_, ?_, ?_, hc.bNodup u b hb⟩
  · show decide ((mLook r s.store).map Sess.id = some sid) = true
    rw [h2]
    simp [sess_id_eq hc h1 h2]
  · intro x hxmem hxr
    obtain ⟨sess2, e1, e2, e3⟩ := (hc.bwd u b hb).2 x hxmem
    show decide ((mLook x s.store).map Sess.id = some sid) = false
    rw [e1]
    simp only [Option.map_some']
    apply decide_eq_false
    intro hh
    have hid : sess2.id = sid := Option.some.inj hh
    rw [hid] at e3
    have hxe : r = x := Option.some.inj (h1.symm.trans e3)
    exact hxr hxe.symm
  · have hm := (hc.fwdIn sid r sess u h1 h2 hu).1
    unfold bucketOf at hm
    rw [hb] at hm
    simpa using hm

/-- Two sids resolving to the same reference are equal (the stored session
carries its sid). -/
theorem ref_inj {s : ServiceState} {sid1 sid2 r : Nat} (hc : InvCore s)
    (e1 : mLook sid1 s.sessions = some r) (e2 : mLook sid2 s.sessions = some r) :
    sid1 = sid2 := by
  obtain ⟨sa, f1, f2⟩ := hc.sessWf sid1 r e1
  obtain ⟨sb, g1, g2⟩ := hc.sessWf sid2 r e2
  rw [f1] at g1
  cases g1
  rw [← f2, g2]

theorem statesOk_of_drop {s : ServiceState} {sid : Nat} (hnd : ndKeys s.sessions)
    (hok : ∀ sid2 r sess, sid2 ≠ sid → mLook sid2 s.sessions = some r →
      mLook r s.store = some sess → sess.state = ST_INITED)
    {t : ServiceState} (hts : t.sessions = mDrop sid s.sessions)
    (hst : t.store = s.store) : statesOk t := by
  intro sid2 r2 sess2 e1 e2
  rw [hts] at e1
  rw [hst] at e2
  have hne : sid2 ≠ sid := by
    intro hh
    subst hh
    rw [mLook_mDrop_self hnd] at e1
    cases e1
  rw [mLook_mDrop_ne s.sessions hne] at e1
  exact hok sid2 r2 sess2 hne e1 e2

/-- Removing a session with a null uid preserves the core invariant of the
registry (only the sid table shrinks). -/
theorem remove_core_none {s : ServiceState} {sid r : Nat} {sess : Sess}
    (hc : InvCore s) (h1 : mLook sid s.sessions = some r)
    (h2 : mLook r s.store = some sess) (hu : sess.uid = none) :
    InvCore { s with sessions := mDrop sid s.sessions } := by
  refine ⟨ndKeys_mDrop sid hc.ndS, hc.ndU, hc.refsLt, ?_, ?_, ?_, ?_, hc.bNodup⟩
  · intro sid2 r2 e1
    have e1' : mLook sid2 (mDrop sid s.sessions) = some r2 := e1
    have hne : sid2 ≠ sid := by
      intro hh
      rw [hh, mLook_mDrop_self hc.ndS] at e1'
      cases e1'
    rw [mLook_mDrop_ne s.sessions hne] at e1'
    exact hc.sessWf sid2 r2 e1'
  · intro sid2 r2 sess2 u2 e1 e2 eu
    have e1' : mLook sid2 (mDrop sid s.sessions) = some r2 := e1
    have hne : sid2 ≠ sid := by
      intro hh
      rw [hh, mLook_mDrop_self hc.ndS] at e1'
      cases e1'
    rw [mLook_mDrop_ne s.sessions hne] at e1'
    exact hc.uidNz sid2 r2 sess2 u2 e1' e2 eu
  · intro sid2 r2 sess2 u2 e1 e2 eu
    have e1' : mLook sid2 (mDrop sid s.sessions) = some r2 := e1
    have hne : sid2 ≠ sid := by
      intro hh
      rw [hh, mLook_mDrop_self hc.ndS] at e1'
      cases e1'
    rw [mLook_mDrop_ne s.sessions hne] at e1'
    exact hc.fwdIn sid2 r2 sess2 u2 e1' e2 eu
  · intro u2 b2 hb2
    refine ⟨(hc.bwd u2 b2 hb2).1, ?_⟩
    intro x hx
    obtain ⟨sess2, f1, f2, f3⟩ := (hc.bwd u2 b2 hb2).2 x hx
    have hne : sess2.id ≠ sid := by
      intro hh
      rw [hh] at f3
      have hxr : r = x := Option.some.inj (h1.symm.trans f3)
      subst hxr
      rw [h2] at f1
      cases f1
      rw [hu] at f2
      cases f2
    refine ⟨sess2, f1, f2, ?_⟩
    show mLook sess2.id (mDrop sid s.sessions) = some x
    rw [mLook_mDrop_ne s.sessions hne]
    exact f3

/-- Removing a bound session whose bucket it exhausts preserves the core
invariant: the sid table entry and the whole bucket disappear. -/
theorem remove_core_drop {s : ServiceState} {sid r : Nat} {sess : Sess} {u : Int}
    {b : List Nat} (hc : InvCore s) (h1 : mLook sid s.sessions = some r)
    (h2 : mLook r s.store = some sess) (hu : sess.uid = some u)
    (hb : mLook u s.uidMap = some b)
    (hempty : spliceFirst (fun r2 => decide ((mLook r2 s.store).map Sess.id = some sid)) b = []) :
    InvCore { s with sessions := mDrop sid s.sessions, uidMap := mDrop u s.uidMap } := by
  obtain ⟨hpr, hothers, hmem, hndb⟩ := bucket_splice hc h1 h2 hu hb
  obtain ⟨hs1, hs2, hs3, hs4⟩ :=
    @spliceFirst_of_nodup_mem Nat
      (fun r2 => decide ((mLook r2 s.store).map Sess.id = some sid)) b r hpr hothers hndb hmem
  have honly : ∀ x ∈ b, x = r := by
    intro x hx
    by_contra hne
    have hx2 := (hs3 x).mpr ⟨hx, hne⟩
    rw [hempty] at hx2
    cases hx2
  refine ⟨ndKeys_mDrop sid hc.ndS, ndKeys_mDrop u hc.ndU, hc.refsLt, ?_, ?_, ?_, ?_, ?_⟩
  · intro sid2 r2 e1
    have e1' : mLook sid2 (mDrop sid s.sessions) = some r2 := e1
    have hne : sid2 ≠ sid := by
      intro hh
      rw [hh, mLook_mDrop_self hc.ndS] at e1'
      cases e1'
    rw [mLook_mDrop_ne s.sessions hne] at e1'
    exact hc.sessWf sid2 r2 e1'
  · intro sid2 r2 sess2 u2 e1 e2 eu
    have e1' : mLook sid2 (mDrop sid s.sessions) = some r2 := e1
    have hne : sid2 ≠ sid := by
      intro hh
      rw [hh, mLook_mDrop_self hc.ndS] at e1'
      cases e1'
    rw [mLook_mDrop_ne s.sessions hne] at e1'
    exact hc.uidNz sid2 r2 sess2 u2 e1' e2 eu
  · intro sid2 r2 sess2 u2 e1 e2 eu
    have e1' : mLook sid2 (mDrop sid s.sessions) = some r2 := e1
    have hne : sid2 ≠ sid := by
      intro hh
      rw [hh, mLook_mDrop_self hc.ndS] at e1'
      cases e1'
    rw [mLook_mDrop_ne s.sessions hne] at e1'
    have hr2 : r2 ≠ r := by
      intro hh
      rw [hh] at e1'
      exact hne (ref_inj hc e1' h1)
    obtain ⟨hm2, hni⟩ := hc.fwdIn sid2 r2 sess2 u2 e1' e2 eu
    have hu2 : u2 ≠ u := by
      intro hh
      rw [hh] at hm2
      unfold bucketOf at hm2
      rw [hb] at hm2
      have hm2' : r2 ∈ b := by simpa using hm2
      exact hr2 (honly r2 hm2')
    constructor
    · show r2 ∈ (mLook u2 (mDrop u s.uidMap)).getD []
      rw [mLook_mDrop_ne s.uidMap hu2]
      exact hm2
    · intro u3 hne3
      show r2 ∉ (mLook u3 (mDrop u s.uidMap)).getD []
      by_cases h3u : u3 = u
      · rw [h3u, mLook_mDrop_self hc.ndU]
        simp
      · rw [mLook_mDrop_ne s.uidMap h3u]
        exact hni u3 hne3
  · intro u2 b3 e
    have e' : mLook u2 (mDrop u s.uidMap) = some b3 := e
    have hu2 : u2 ≠ u := by
      intro hh
      rw [hh, mLook_mDrop_self hc.ndU] at e'
      cases e'
    rw [mLook_mDrop_ne s.uidMap hu2] at e'
    refine ⟨(hc.bwd u2 b3 e').1, ?_⟩
    intro x hx
    obtain ⟨sess2, f1, f2, f3⟩ := (hc.bwd u2 b3 e').2 x hx
    have hne : sess2.id ≠ sid := by
      intro hh
      rw [hh] at f3
      have hxr : r = x := Option.some.inj (h1.symm.trans f3)
      subst hxr
      rw [h2] at f1
      cases f1
      rw [hu] at f2
      exact hu2 (Option.some.inj f2).symm
    refine ⟨sess2, f1, f2, ?_⟩
    show mLook sess2.id (mDrop sid s.sessions) = some x
    rw [mLook_mDrop_ne s.sessions hne]
    exact f3
  · intro u2 b3 e
    have e' : mLook u2 (mDrop u s.uidMap) = some b3 := e
    have hu2 : u2 ≠ u := by
      intro hh
      rw [hh, mLook_mDrop_self hc.ndU] at e'
      cases e'
    rw [mLook_mDrop_ne s.uidMap hu2] at e'
    exact hc.bNodup u2 b3 e'

/-- Removing a bound session that leaves other sessions in its bucket
preserves the core invariant: the bucket shrinks by exactly that session. -/
theorem remove_core_put {s : ServiceState} {sid r : Nat} {sess : Sess} {u : Int}
    {b : List Nat} (hc : InvCore s) (h1 : mLook sid s.sessions = some r)
    (h2 : mLook r s.store = some sess) (hu : sess.uid = some u)
    (hb : mLook u s.uidMap = some b)
    (hnon : spliceFirst (fun r2 => decide ((mLook r2 s.store).map Sess.id = some sid)) b ≠ []) :
    InvCore { s with
      sessions := mDrop sid s.sessions,
      uidMap := mPut u (spliceFirst (fun r2 => decide ((mLook r2 s.store).map Sess.id = some sid)) b) s.uidMap } := by
  obtain ⟨hpr, hothers, hmem, hndb⟩ := bucket_splice hc h1 h2 hu hb
  obtain ⟨hs1, hs2, hs3, hs4⟩ :=
    @spliceFirst_of_nodup_mem Nat
      (fun r2 => decide ((mLook r2 s.store).map Sess.id = some sid)) b r hpr hothers hndb hmem
  refine ⟨ndKeys_mDrop sid hc.ndS, ndKeys_mPut u _ hc.ndU, hc.refsLt, ?_, ?_, ?_, ?_, ?_⟩
  · intro sid2 r2 e1
    have e1' : mLook sid2 (mDrop sid s.sessions) = some r2 := e1
    have hne : sid2 ≠ sid := by
      intro hh
      rw [hh, mLook_mDrop_self hc.ndS] at e1'
      cases e1'
    rw [mLook_mDrop_ne s.sessions hne] at e1'
    exact hc.sessWf sid2 r2 e1'
  · intro sid2 r2 sess2 u2 e1 e2 eu
    have e1' : mLook sid2 (mDrop sid s.sessions) = some r2 := e1
    have hne : sid2 ≠ sid := by
      intro hh
      rw [hh, mLook_mDrop_self hc.ndS] at e1'
      cases e1'
    rw [mLook_mDrop_ne s.sessions hne] at e1'
    exact hc.uidNz sid2 r2 sess2 u2 e1' e2 eu
  · intro sid2 r2 sess2 u2 e1 e2 eu
    have e1' : mLook sid2 (mDrop sid s.sessions) = some r2 := e1
    have hne : sid2 ≠ sid := by
      intro hh
      rw [hh, mLook_mDrop_self hc.ndS] at e1'
      cases e1'
    rw [mLook_mDrop_ne s.sessions hne] at e1'
    have hr2 : r2 ≠ r := by
      intro hh
      rw [hh] at e1'
      exact hne (ref_inj hc e1' h1)
    obtain ⟨hm2, hni⟩ := hc.fwdIn sid2 r2 sess2 u2 e1' e2 eu
    constructor
    · show r2 ∈ (mLook u2 (mPut u _ s.uidMap)).getD []
      by_cases hu2 : u2 = u
      · subst hu2
        rw [mLook_mPut_self]
        have hm2' : r2 ∈ b := by
          unfold bucketOf at hm2
          rw [hb] at hm2
          simpa using hm2
        simpa using (hs3 r2).mpr ⟨hm2', hr2⟩
      · rw [mLook_mPut_ne _ s.uidMap hu2]
        exact hm2
    · intro u3 hne3
      show r2 ∉ (mLook u3 (mPut u _ s.uidMap)).getD []
      by_cases h3u : u3 = u
      · subst h3u
        rw [mLook_mPut_self]
        intro hmem3
        have hmem3' := (hs3 r2).mp (by simpa using hmem3)
        have : r2 ∉ bucketOf u3 s := hni u3 hne3
        unfold bucketOf at this
        rw [hb] at this
        exact this (by simpa using hmem3'.1)
      · rw [mLook_mPut_ne _ s.uidMap h3u]
        exact hni u3 hne3
  · intro u2 b3 e
    have e' : mLook u2 (mPut u _ s.uidMap) = some b3 := e
    by_cases hu2 : u2 = u
    · subst hu2
      rw [mLook_mPut_self] at e'
      have hb3 : _ = b3 := Option.some.inj e'
      subst hb3
      refine ⟨hnon, ?_⟩
      intro x hx
      obtain ⟨hxb, hxr⟩ := (hs3 x).mp hx
      obtain ⟨sess2, f1, f2, f3⟩ := (hc.bwd u2 b hb).2 x hxb
      have hne : sess2.id ≠ sid := by
        intro hh
        rw [hh] at f3
        exact hxr (Option.some.inj (h1.symm.trans f3)).symm
      refine ⟨sess2, f1, f2, ?_⟩
      show mLook sess2.id (mDrop sid s.sessions) = some x
      rw [mLook_mDrop_ne s.sessions hne]
      exact f3
    · rw [mLook_mPut_ne _ s.uidMap hu2] at e'
      refine ⟨(hc.bwd u2 b3 e').1, ?_⟩
      intro x hx
      obtain ⟨sess2, f1, f2, f3⟩ := (hc.bwd u2 b3 e').2 x hx
      have hne : sess2.id ≠ sid := by
        intro hh
        rw [hh] at f3
        have hxr : r = x := Option.some.inj (h1.symm.trans f3)
        subst hxr
        rw [h2] at f1
        cases f1
        rw [hu] at f2
        exact hu2 (Option.some.inj f2).symm
      refine ⟨sess2, f1, f2, ?_⟩
      show mLook sess2.id (mDrop sid s.sessions) = some x
      rw [mLook_mDrop_ne s.sessions hne]
      exact f3
  · intro u2 b3 e
    have e' : mLook u2 (mPut u _ s.uidMap) = some b3 := e
    by_cases hu2 : u2 = u
    · subst hu2
      rw [mLook_mPut_self] at e'
      have hb3 : _ = b3 := Option.some.inj e'
      subst hb3
      exact hs4
    · rw [mLook_mPut_ne _ s.uidMap hu2] at e'
      exact hc.bNodup u2 b3 e'

/-- Full description of SessionService.remove under the invariant: the
result satisfies the invariant again (given that every other registered
session is still live), the sid row is dropped, and the uid index changes
exactly by splicing the removed session out of its bucket, deleting the
bucket when that empties it. -/
theorem remove_master (sid : Nat) {s : ServiceState} (hc : InvCore s)
    (hok : ∀ sid2 r sess, sid2 ≠ sid → mLook sid2 s.sessions = some r →
      mLook r s.store = some sess → sess.state = ST_INITED) :
    SvcInvariant (SessionService.remove sid s) ∧
    (SessionService.remove sid s).sessions = mDrop sid s.sessions ∧
    (mLook sid s.sessions = none → SessionService.remove sid s = s) ∧
    (∀ r sess, mLook sid s.sessions = some r → mLook r s.store = some sess →
      sess.uid = none → (SessionService.remove sid s).uidMap = s.uidMap) ∧
    (∀ r sess u b, mLook sid s.sessions = some r → mLook r s.store = some sess →
      sess.uid = some u → mLook u s.uidMap = some b →
      (∀ u2, u2 ≠ u → mLook u2 (SessionService.remove sid s).uidMap = mLook u2 s.uidMap) ∧
      mLook u (SessionService.remove sid s).uidMap =
        (if (spliceFirst (fun r2 => decide ((mLook r2 s.store).map Sess.id = some sid)) b).isEmpty
         then none
         else some (spliceFirst (fun r2 => decide ((mLook r2 s.store).map Sess.id = some sid)) b))) := by
  cases h1 : mLook sid s.sessions with
  | none =>
    have hrm : SessionService.remove sid s = s := by
      simp only [SessionService.remove, h1]
    refine ⟨?_, ?_, fun _ => hrm, ?_, ?_⟩
    · rw [hrm]
      refine ⟨hc, ?_⟩
      intro sid2 r2 sess2 e1 e2
      by_cases hne : sid2 = sid
      · rw [hne, h1] at e1
        cases e1
      · exact hok sid2 r2 sess2 hne e1 e2
    · rw [hrm, mDrop_of_mLook_none h1]
    · intro r sess e1 e2 hu
      cases e1
    · intro r sess u b e1 e2 hu hb
      cases e1
  | some r =>
    obtain ⟨sess, h2, hsid⟩ := hc.sessWf sid r h1
    cases hu : sess.uid with
    | none =>
      have hrm : SessionService.remove sid s =
          { s with sessions := mDrop sid s.sessions } := by
        simp only [SessionService.remove, h1, h2, hu]
      refine ⟨?_, ?_, ?_, ?_, ?_⟩
      · rw [hrm]
        exact ⟨remove_core_none hc h1 h2 hu, statesOk_of_drop hc.ndS hok rfl rfl⟩
      · rw [hrm]
      · intro hcontra
        cases hcontra
      · intro r' sess' e1 e2 hu'
        rw [hrm]
      · intro r' sess' u' b' e1 e2 hu' hb'
        have hr : r = r' := Option.some.inj e1
        subst hr
        rw [h2] at e2
        cases e2
        rw [hu] at hu'
        cases hu'
    | some u =>
      have hbex : ∃ b, mLook u s.uidMap = some b := by
        have hm := (hc.fwdIn sid r sess u h1 h2 hu).1
        unfold bucketOf at hm
        cases hbb : mLook u s.uidMap with
        | none =>
          rw [hbb] at hm
          simp at hm
        | some b => exact ⟨b, rfl⟩
      obtain ⟨b, hb⟩ := hbex
      obtain ⟨hpr, hothers, hmem, hndb⟩ := bucket_splice hc h1 h2 hu hb
      have hany : b.any (fun r2 => decide ((mLook r2 s.store).map Sess.id = some sid)) = true :=
        List.any_eq_true.mpr ⟨r, hmem, hpr⟩
      by_cases hemp :
          (spliceFirst (fun r2 => decide ((mLook r2 s.store).map Sess.id = some sid)) b).isEmpty = true
      · have hempeq :
            spliceFirst (fun r2 => decide ((mLook r2 s.store).map Sess.id = some sid)) b = [] :=
          List.isEmpty_iff.mp hemp
        have hrm : SessionService.remove sid s =
            { s with sessions := mDrop sid s.sessions, uidMap := mDrop u s.uidMap } := by
          simp only [SessionService.remove, h1, h2, hu, hb, hany, hemp, if_true]
        refine ⟨?_, ?_, ?_, ?_, ?_⟩
        · rw [hrm]
          exact ⟨remove_core_drop hc h1 h2 hu hb hempeq, statesOk_of_drop hc.ndS hok rfl rfl⟩
        · rw [hrm]
        · intro hcontra
          cases hcontra
        · intro r' sess' e1 e2 hu'
          have hr : r = r' := Option.some.inj e1
          subst hr
          rw [h2] at e2
          cases e2
          rw [hu] at hu'
          cases hu'
        · intro r' sess' u' b' e1 e2 hu' hb'
          have hr : r = r' := Option.some.inj e1
          subst hr
          rw [h2] at e2
          cases e2
          rw [hu] at hu'
          have huu : u = u' := Option.some.inj hu'
          subst huu
          rw [hb] at hb'
          have hbb : b = b' := Option.some.inj hb'
          subst hbb
          constructor
          · intro u2 hne2
            rw [hrm]
            show mLook u2 (mDrop u s.uidMap) = mLook u2 s.uidMap
            exact mLook_mDrop_ne s.uidMap hne2
          · rw [hrm, hempeq]
            simpa using mLook_mDrop_self hc.ndU
      · have hne :
            spliceFirst (fun r2 => decide ((mLook r2 s.store).map Sess.id = some sid)) b ≠ [] := by
          intro hh
          rw [hh] at hemp
          exact hemp rfl
        have hempf :
            (spliceFirst (fun r2 => decide ((mLook r2 s.store).map Sess.id = some sid)) b).isEmpty = false := by
          cases hval :
              (spliceFirst (fun r2 => decide ((mLook r2 s.store).map Sess.id = some sid)) b).isEmpty
          · rfl
          · exact absurd hval hemp
        have hrm : SessionService.remove sid s =
            { s with
              sessions := mDrop sid s.sessions,
              uidMap := mPut u (spliceFirst (fun r2 => decide ((mLook r2 s.store).map Sess.id = some sid)) b) s.uidMap } := by
          simp only [SessionService.remove, h1, h2, hu, hb, hany, hempf, if_true,
            Bool.false_eq_true, if_false]
        refine ⟨?_, ?_, ?_, ?_, ?_⟩
        · rw [hrm]
          exact ⟨remove_core_put hc h1 h2 hu hb hne, statesOk_of_drop hc.ndS hok rfl rfl⟩
        · rw [hrm]
        · intro hcontra
          cases hcontra
        · intro r' sess' e1 e2 hu'
          have hr : r = r' := Option.some.inj e1
          subst hr
          rw [h2] at e2
          cases e2
          rw [hu] at hu'
          cases hu'
        · intro r' sess' u' b' e1 e2 hu' hb'
          have hr : r = r' := Option.some.inj e1
          subst hr
          rw [h2] at e2
          cases e2
          rw [hu] at hu'
          have huu : u = u' := Option.some.inj hu'
          subst huu
          rw [hb] at hb'
          have hbb : b = b' := Option.some.inj hb'
          subst hbb
          constructor
          · intro u2 hne2
            rw [hrm]
            show mLook u2 (mPut u _ s.uidMap) = mLook u2 s.uidMap
            exact mLook_mPut_ne _ s.uidMap hne2
          · rw [hrm]
            have hL := mLook_mPut_self u
              (spliceFirst (fun r2 => decide ((mLook r2 s.store).map Sess.id = some sid)) b) s.uidMap
            rw [hempf]
            simp only [Bool.false_eq_true, if_false]
            exact hL

theorem svcInv_pushEv (e : Ev) {s : ServiceState} (h : SvcInvariant s) :
    SvcInvariant (pushEv e s) :=
  ⟨invCore_congr h.1 rfl rfl rfl rfl, statesOk_congr h.2 rfl rfl⟩

theorem svcInv_pushCb (cb : Nat) (err : Option String) (d : Bool) {s : ServiceState}
    (h : SvcInvariant s) : SvcInvariant (pushCb cb err d s) :=
  svcInv_pushEv _ h

theorem svcInv_invokeCb (cb : Option Nat) (err : Option String) (d : Bool)
    {s : ServiceState} (h : SvcInvariant s) : SvcInvariant (invokeCb cb err d s) := by
  cases cb with
  | none => exact h
  | some c => exact svcInv_pushCb c err d h

/-- The fresh session record allocated by create (definitionally the one
the operation stores). -/
def mkSess (sid : Nat) (fid : String) (sock : Nat) : Sess :=
  { id := sid, frontendId := fid, uid := none, settings := [], state := ST_INITED, socket := sock }

/-- SessionService.create with a fresh sid preserves the invariant. -/
theorem create_preserves {s : ServiceState} (hi : SvcInvariant s) (sid : Nat)
    (fid : String) (sock : Nat) (hfresh : mLook sid s.sessions = none) :
    SvcInvariant (SessionService.create sid fid sock s) := by
  obtain ⟨hc, hok⟩ := hi
  constructor
  · refine ⟨?_, hc.ndU, ?_, ?_, ?_, ?_, ?_, hc.bNodup⟩
    · exact ndKeys_mPut sid s.nextRef hc.ndS
    · intro r2 sess2 hr
      have hr' : mLook r2 (mPut s.nextRef (mkSess sid fid sock) s.store) = some sess2 := hr
      show r2 < s.nextRef + 1
      by_cases hrn : r2 = s.nextRef
      · rw [hrn]
        exact Nat.lt_succ_self _
      · rw [mLook_mPut_ne _ s.store hrn] at hr'
        exact Nat.lt_succ_of_lt (hc.refsLt r2 sess2 hr')
    · intro sid2 r2 e
      have e' : mLook sid2 (mPut sid s.nextRef s.sessions) = some r2 := e
      by_cases hs2 : sid2 = sid
      · subst hs2
        rw [mLook_mPut_self] at e'
        have hr2 : s.nextRef = r2 := Option.some.inj e'
        subst hr2
        refine ⟨mkSess sid2 fid sock, ?_, rfl⟩
        show mLook s.nextRef (mPut s.nextRef (mkSess sid2 fid sock) s.store) = _
        rw [mLook_mPut_self]
      · rw [mLook_mPut_ne _ s.sessions hs2] at e'
        obtain ⟨sess2, f1, f2⟩ := hc.sessWf sid2 r2 e'
        have hr2 : r2 ≠ s.nextRef := by
          intro hh
          have := hc.refsLt r2 sess2 f1
          rw [hh] at this
          exact lt_irrefl _ this
        refine ⟨sess2, ?_, f2⟩
        show mLook r2 (mPut s.nextRef (mkSess sid fid sock) s.store) = some sess2
        rw [mLook_mPut_ne _ s.store hr2]
        exact f1
    · intro sid2 r2 sess2 u2 e1 e2 eu
      have e1' : mLook sid2 (mPut sid s.nextRef s.sessions) = some r2 := e1
      by_cases hs2 : sid2 = sid
      · subst hs2
        rw [mLook_mPut_self] at e1'
        have hr2 : s.nextRef = r2 := Option.some.inj e1'
        subst hr2
        have e2' : mLook s.nextRef (mPut s.nextRef (mkSess sid2 fid sock) s.store) = some sess2 := e2
        rw [mLook_mPut_self] at e2'
        have hss : _ = sess2 := Option.some.inj e2'
        subst hss
        cases eu
      · rw [mLook_mPut_ne _ s.sessions hs2] at e1'
        obtain ⟨sess3, f1, f2⟩ := hc.sessWf sid2 r2 e1'
        have hr2 : r2 ≠ s.nextRef := by
          intro hh
          have := hc.refsLt r2 sess3 f1
          rw [hh] at this
          exact lt_irrefl _ this
        have e2' : mLook r2 (mPut s.nextRef (mkSess sid fid sock) s.store) = some sess2 := e2
        rw [mLook_mPut_ne _ s.store hr2] at e2'
        exact hc.uidNz sid2 r2 sess2 u2 e1' e2' eu
    · intro sid2 r2 sess2 u2 e1 e2 eu
      have e1' : mLook sid2 (mPut sid s.nextRef s.sessions) = some r2 := e1
      by_cases hs2 : sid2 = sid
      · subst hs2
        rw [mLook_mPut_self] at e1'
        have hr2 : s.nextRef = r2 := Option.some.inj e1'
        subst hr2
        have e2' : mLook s.nextRef (mPut s.nextRef (mkSess sid2 fid sock) s.store) = some sess2 := e2
        rw [mLook_mPut_self] at e2'
        have hss : _ = sess2 := Option.some.inj e2'
        subst hss
        cases eu
      · rw [mLook_mPut_ne _ s.sessions hs2] at e1'
        obtain ⟨sess3, f1, f2⟩ := hc.sessWf sid2 r2 e1'
        have hr2 : r2 ≠ s.nextRef := by
          intro hh
          have := hc.refsLt r2 sess3 f1
          rw [hh] at this
          exact lt_irrefl _ this
        have e2' : mLook r2 (mPut s.nextRef (mkSess sid fid sock) s.store) = some sess2 := e2
        rw [mLook_mPut_ne _ s.store hr2] at e2'
        have hold := hc.fwdIn sid2 r2 sess2 u2 e1' e2' eu
        constructor
        · show r2 ∈ bucketOf u2 { s with store := _, sessions := _, nextRef := _ }
          exact hold.1
        · intro u3 hne3
          exact hold.2 u3 hne3
    · intro u2 b2 e
      have e' : mLook u2 s.uidMap = some b2 := e
      refine ⟨(hc.bwd u2 b2 e').1, ?_⟩
      intro x hx
      obtain ⟨sess2, f1, f2, f3⟩ := (hc.bwd u2 b2 e').2 x hx
      have hxn : x ≠ s.nextRef := by
        intro hh
        have := hc.refsLt x sess2 f1
        rw [hh] at this
        exact lt_irrefl _ this
      have hid : sess2.id ≠ sid := by
        intro hh
        rw [hh, hfresh] at f3
        cases f3
      refine ⟨sess2, ?_, f2, ?_⟩
      · show mLook x (mPut s.nextRef (mkSess sid fid sock) s.store) = some sess2
        rw [mLook_mPut_ne _ s.store hxn]
        exact f1
      · show mLook sess2.id (mPut sid s.nextRef s.sessions) = some x
        rw [mLook_mPut_ne _ s.sessions hid]
        exact f3
  · intro sid2 r2 sess2 e1 e2
    have e1' : mLook sid2 (mPut sid s.nextRef s.sessions) = some r2 := e1
    by_cases hs2 : sid2 = sid
    · subst hs2
      rw [mLook_mPut_self] at e1'
      have hr2 : s.nextRef = r2 := Option.some.inj e1'
      subst hr2
      have e2' : mLook s.nextRef (mPut s.nextRef (mkSess sid2 fid sock) s.store) = some sess2 := e2
      rw [mLook_mPut_self] at e2'
      have hss : _ = sess2 := Option.some.inj e2'
      subst hss
      rfl
    · rw [mLook_mPut_ne _ s.sessions hs2] at e1'
      obtain ⟨sess3, f1, f2⟩ := hc.sessWf sid2 r2 e1'
      have hr2 : r2 ≠ s.nextRef := by
        intro hh
        have := hc.refsLt r2 sess3 f1
        rw [hh] at this
        exact lt_irrefl _ this
      have e2' : mLook r2 (mPut s.nextRef (mkSess sid fid sock) s.store) = some sess2 := e2
      rw [mLook_mPut_ne _ s.store hr2] at e2'
      exact hok sid2 r2 sess2 e1' e2'

/-- SessionService.bind with a nonzero uid preserves the invariant. -/
theorem bind_preserves {s : ServiceState} (hi : SvcInvariant s) (sid : Nat) (uid : Int)
    (cb : Nat) (huid : uid ≠ 0) : SvcInvariant (SessionService.bind sid uid cb s) := by
  obtain ⟨hc, hok⟩ := hi
  cases h1 : mLook sid s.sessions with
  | none =>
    have hrm : SessionService.bind sid uid cb s =
        pushCb cb (some (sessNotExistMsg sid)) true s := by
      simp only [SessionService.bind, h1]
    rw [hrm]
    exact svcInv_pushCb _ _ _ ⟨hc, hok⟩
  | some r =>
    cases h2 : mLook r s.store with
    | none =>
      have hrm : SessionService.bind sid uid cb s = s := by
        simp only [SessionService.bind, h1, h2]
      rw [hrm]
      exact ⟨hc, hok⟩
    | some sess =>
      by_cases h3 : uidTruthy sess.uid = true
      · by_cases h4 : sess.uid = some uid
        · have hrm : SessionService.bind sid uid cb s = pushCb cb none false s := by
            simp only [SessionService.bind, h1, h2, if_pos h3, if_pos h4]
          rw [hrm]
          exact svcInv_pushCb _ _ _ ⟨hc, hok⟩
        · have hrm : SessionService.bind sid uid cb s =
              pushCb cb (some (alreadyBoundMsg sess.uid)) true s := by
            simp only [SessionService.bind, h1, h2, if_pos h3, if_neg h4]
          rw [hrm]
          exact svcInv_pushCb _ _ _ ⟨hc, hok⟩
      · by_cases h5 : (s.singleSession && (mLook uid s.uidMap).isSome) = true
        · have hrm : SessionService.bind sid uid cb s =
              pushCb cb (some (singleSessionMsg uid)) true s := by
            simp only [SessionService.bind, h1, h2]
            rw [if_neg h3, if_pos h5]
          rw [hrm]
          exact svcInv_pushCb _ _ _ ⟨hc, hok⟩
        · by_cases h6 : ((mLook uid s.uidMap).getD []).any
              (fun r2 => decide ((mLook r2 s.store).map Sess.id = some sess.id)) = true
          · have hrm : SessionService.bind sid uid cb s = pushCb cb none true s := by
              simp only [SessionService.bind, h1, h2]
              rw [if_neg h3, if_neg h5, if_pos h6]
            rw [hrm]
            exact svcInv_pushCb _ _ _ ⟨hc, hok⟩
          · have hun : sess.uid = none := by
              cases hval : sess.uid with
              | none => rfl
              | some v =>
                have hvz : v = 0 := by
                  by_contra hvne
                  apply h3
                  rw [hval]
                  simp [uidTruthy, hvne]
                rw [hvz] at hval
                exact absurd (hc.uidNz sid r sess 0 h1 h2 hval) (by simp)
            have hnotin : ∀ u2 b2, mLook u2 s.uidMap = some b2 → r ∉ b2 :=
              uid_none_not_in_bucket hc h2 hun
            have hsid : sess.id = sid := sess_id_eq hc h1 h2
            have hrm : SessionService.bind sid uid cb s =
                pushCb cb none true (pushEv (Ev.bindEv r uid)
                  { s with
                    uidMap := mPut uid ((mLook uid s.uidMap).getD [] ++ [r]) s.uidMap,
                    store := mPut r { sess with uid := some uid } s.store }) := by
              simp only [SessionService.bind, h1, h2]
              rw [if_neg h3, if_neg h5, if_neg h6]
            rw [hrm]
            apply svcInv_pushCb
            apply svcInv_pushEv
            constructor
            · refine ⟨hc.ndS, ndKeys_mPut uid _ hc.ndU, ?_, ?_, ?_, ?_, ?_, ?_⟩
              · intro r2 sess2 hr
                have hr' : mLook r2 (mPut r { sess with uid := some uid } s.store) =
                    some sess2 := hr
                show r2 < s.nextRef
                by_cases hrn : r2 = r
                · rw [hrn]
                  exact hc.refsLt r sess h2
                · rw [mLook_mPut_ne _ s.store hrn] at hr'
                  exact hc.refsLt r2 sess2 hr'
              · intro sid2 r2 e
                have e' : mLook sid2 s.sessions = some r2 := e
                obtain ⟨sess3, f1, f2⟩ := hc.sessWf sid2 r2 e'
                by_cases hrn : r2 = r
                · subst hrn
                  rw [h2] at f1
                  cases f1
                  refine ⟨{ sess with uid := some uid }, ?_, f2⟩
                  show mLook r2 (mPut r2 { sess with uid := some uid } s.store) = _
                  rw [mLook_mPut_self]
                · refine ⟨sess3, ?_, f2⟩
                  show mLook r2 (mPut r { sess with uid := some uid } s.store) = some sess3
                  rw [mLook_mPut_ne _ s.store hrn]
                  exact f1
              · intro sid2 r2 sess2 u2 e1 e2 eu
                have e1' : mLook sid2 s.sessions = some r2 := e1
                by_cases hrn : r2 = r
                · subst hrn
                  have e2' : mLook r2 (mPut r2 { sess with uid := some uid } s.store) =
                      some sess2 := e2
                  rw [mLook_mPut_self] at e2'
                  have hss : _ = sess2 := Option.some.inj e2'
                  subst hss
                  have : uid = u2 := Option.some.inj eu
                  rw [← this]
                  exact huid
                · have e2' : mLook r2 (mPut r { sess with uid := some uid } s.store) =
                      some sess2 := e2
                  rw [mLook_mPut_ne _ s.store hrn] at e2'
                  exact hc.uidNz sid2 r2 sess2 u2 e1' e2' eu
              · intro sid2 r2 sess2 u2 e1 e2 eu
                have e1' : mLook sid2 s.sessions = some r2 := e1
                by_cases hrn : r2 = r
                · subst hrn
                  have e2' : mLook r2 (mPut r2 { sess with uid := some uid } s.store) =
                      some sess2 := e2
                  rw [mLook_mPut_self] at e2'
                  have hss : _ = sess2 := Option.some.inj e2'
                  subst hss
                  have hu2 : uid = u2 := Option.some.inj eu
                  subst hu2
                  constructor
                  · show r2 ∈ (mLook uid (mPut uid ((mLook uid s.uidMap).getD [] ++ [r2])
                      s.uidMap)).getD []
                    rw [mLook_mPut_self]
                    simp
                  · intro u3 hne3
                    show r2 ∉ (mLook u3 (mPut uid ((mLook uid s.uidMap).getD [] ++ [r2])
                      s.uidMap)).getD []
                    rw [mLook_mPut_ne _ s.uidMap hne3]
                    cases hlk : mLook u3 s.uidMap with
                    | none => simp
                    | some b3 =>
                      intro hmem3
                      exact hnotin u3 b3 hlk (by simpa using hmem3)
                · have e2' : mLook r2 (mPut r { sess with uid := some uid } s.store) =
                      some sess2 := e2
                  rw [mLook_mPut_ne _ s.store hrn] at e2'
                  obtain ⟨m2, ni⟩ := hc.fwdIn sid2 r2 sess2 u2 e1' e2' eu
                  constructor
                  · by_cases hu2 : u2 = uid
                    · subst hu2
                      show r2 ∈ (mLook u2 (mPut u2 ((mLook u2 s.uidMap).getD [] ++ [r])
                        s.uidMap)).getD []
                      rw [mLook_mPut_self]
                      unfold bucketOf at m2
                      simp only [Option.getD_some]
                      exact List.mem_append_left _ m2
                    · show r2 ∈ (mLook u2 (mPut uid ((mLook uid s.uidMap).getD [] ++ [r])
                        s.uidMap)).getD []
                      rw [mLook_mPut_ne _ s.uidMap hu2]
                      exact m2
                  · intro u3 hne3
                    by_cases h3u : u3 = uid
                    · subst h3u
                      show r2 ∉ (mLook u3 (mPut u3 ((mLook u3 s.uidMap).getD [] ++ [r])
                        s.uidMap)).getD []
                      rw [mLook_mPut_self]
                      simp only [Option.getD_some]
                      intro hmem3
                      rcases List.mem_append.mp hmem3 with hh | hh
                      · have := ni u3 hne3
                        unfold bucketOf at this
                        exact this hh
                      · have : r2 = r := by simpa using hh
                        exact hrn this
                    · show r2 ∉ (mLook u3 (mPut uid ((mLook uid s.uidMap).getD [] ++ [r])
                        s.uidMap)).getD []
                      rw [mLook_mPut_ne _ s.uidMap h3u]
                      exact ni u3 hne3
              · intro u2 b2 e
                have e' : mLook u2 (mPut uid ((mLook uid s.uidMap).getD [] ++ [r])
                    s.uidMap) = some b2 := e
                by_cases hu2 : u2 = uid
                · subst hu2
                  rw [mLook_mPut_self] at e'
                  have hbb : _ = b2 := Option.some.inj e'
                  subst hbb
                  refine ⟨by simp, ?_⟩
                  intro x hx
                  rcases List.mem_append.mp hx with hh | hh
                  · cases hlk : mLook u2 s.uidMap with
                    | none =>
                      rw [hlk] at hh
                      simp at hh
                    | some b0 =>
                      rw [hlk] at hh
                      simp only [Option.getD_some] at hh
                      obtain ⟨sess2, f1, f2, f3⟩ := (hc.bwd u2 b0 hlk).2 x hh
                      have hxr : x ≠ r := by
                        intro hxx
                        exact hnotin u2 b0 hlk (hxx ▸ hh)
                      refine ⟨sess2, ?_, f2, f3⟩
                      show mLook x (mPut r { sess with uid := some u2 } s.store) = some sess2
                      rw [mLook_mPut_ne _ s.store hxr]
                      exact f1
                  · have hxr : x = r := by simpa using hh
                    subst hxr
                    refine ⟨{ sess with uid := some u2 }, ?_, rfl, ?_⟩
                    · show mLook x (mPut x { sess with uid := some u2 } s.store) = _
                      rw [mLook_mPut_self]
                    · show mLook ({ sess with uid := some u2 } : Sess).id s.sessions = some x
                      show mLook sess.id s.sessions = some x
                      rw [hsid]
                      exact h1
                · rw [mLook_mPut_ne _ s.uidMap hu2] at e'
                  refine ⟨(hc.bwd u2 b2 e').1, ?_⟩
                  intro x hx
                  obtain ⟨sess2, f1, f2, f3⟩ := (hc.bwd u2 b2 e').2 x hx
                  have hxr : x ≠ r := by
                    intro hxx
                    exact hnotin u2 b2 e' (hxx ▸ hx)
                  refine ⟨sess2, ?_, f2, f3⟩
                  show mLook x (mPut r { sess with uid := some uid } s.store) = some sess2
                  rw [mLook_mPut_ne _ s.store hxr]
                  exact f1
              · intro u2 b2 e
                have e' : mLook u2 (mPut uid ((mLook uid s.uidMap).getD [] ++ [r])
                    s.uidMap) = some b2 := e
                by_cases hu2 : u2 = uid
                · subst hu2
                  rw [mLook_mPut_self] at e'
                  have hbb : _ = b2 := Option.some.inj e'
                  subst hbb
                  cases hlk : mLook u2 s.uidMap with
                  | none =>
                    simp
                  | some b0 =>
                    simp only [Option.getD_some]
                    rw [List.nodup_append]
                    refine ⟨hc.bNodup u2 b0 hlk, by simp, ?_⟩
                    intro x hx hy
                    have hyr : x = r := by simpa using hy
                    exact hnotin u2 b0 hlk (hyr ▸ hx)
                · rw [mLook_mPut_ne _ s.uidMap hu2] at e'
                  exact hc.bNodup u2 b2 e'
            · intro sid2 r2 sess2 e1 e2
              have e1' : mLook sid2 s.sessions = some r2 := e1
              by_cases hrn : r2 = r
              · subst hrn
                have e2' : mLook r2 (mPut r2 { sess with uid := some uid } s.store) =
                    some sess2 := e2
                rw [mLook_mPut_self] at e2'
                have hss : _ = sess2 := Option.some.inj e2'
                subst hss
                show sess.state = ST_INITED
                exact hok sid2 r2 sess e1' h2
              · have e2' : mLook r2 (mPut r { sess with uid := some uid } s.store) =
                    some sess2 := e2
                rw [mLook_mPut_ne _ s.store hrn] at e2'
                exact hok sid2 r2 sess2 e1' e2'

/-- SessionService.unbind preserves the invariant for every call. -/
theorem unbind_preserves {s : ServiceState} (hi : SvcInvariant s) (sid : Nat) (uid : Int)
    (cb : Nat) : SvcInvariant (SessionService.unbind sid uid cb s) := by
  obtain ⟨hc, hok⟩ := hi
  cases h1 : mLook sid s.sessions with
  | none =>
    have hrm : SessionService.unbind sid uid cb s =
        pushCb cb (some (sessNotExistMsg sid)) true s := by
      simp only [SessionService.unbind, h1]
    rw [hrm]
    exact svcInv_pushCb _ _ _ ⟨hc, hok⟩
  | some r =>
    cases h2 : mLook r s.store with
    | none =>
      have hrm : SessionService.unbind sid uid cb s = s := by
        simp only [SessionService.unbind, h1, h2]
      rw [hrm]
      exact ⟨hc, hok⟩
    | some sess =>
      by_cases h3 : uidTruthy sess.uid = false ∨ sess.uid ≠ some uid
      · have hrm : SessionService.unbind sid uid cb s =
            pushCb cb (some (notBindMsg sess.uid)) true s := by
          simp only [SessionService.unbind, h1, h2, if_pos h3]
        rw [hrm]
        exact svcInv_pushCb _ _ _ ⟨hc, hok⟩
      · push_neg at h3
        have hueq : sess.uid = some uid := h3.2
        have hsid : sess.id = sid := sess_id_eq hc h1 h2
        have hbex : ∃ b, mLook uid s.uidMap = some b := by
          have hm := (hc.fwdIn sid r sess uid h1 h2 hueq).1
          unfold bucketOf at hm
          cases hbb : mLook uid s.uidMap with
          | none =>
            rw [hbb] at hm
            simp at hm
          | some b => exact ⟨b, rfl⟩
        obtain ⟨b, hb⟩ := hbex
        obtain ⟨hpr, hothers, hmem, hndb⟩ := bucket_splice hc h1 h2 hueq hb
        obtain ⟨hs1, hs2, hs3, hs4⟩ :=
          @spliceFirst_of_nodup_mem Nat
            (fun r2 => decide ((mLook r2 s.store).map Sess.id = some sid)) b r
            hpr hothers hndb hmem
        have h3o : ¬ (uidTruthy sess.uid = false ∨ sess.uid ≠ some uid) := by
          intro hh
          rcases hh with hh | hh
          · exact h3.1 hh
          · exact hh h3.2
        by_cases hemp :
            (spliceFirst (fun r2 => decide ((mLook r2 s.store).map Sess.id = some sid)) b).isEmpty = true
        · have hempeq :
              spliceFirst (fun r2 => decide ((mLook r2 s.store).map Sess.id = some sid)) b = [] :=
            List.isEmpty_iff.mp hemp
          have honly : ∀ x ∈ b, x = r := by
            intro x hx
            by_contra hne
            have hx2 := (hs3 x).mpr ⟨hx, hne⟩
            rw [hempeq] at hx2
            cases hx2
          have hrm : SessionService.unbind sid uid cb s =
              pushCb cb none true (pushEv (Ev.unbindEv r uid)
                { s with
                  uidMap := mDrop uid s.uidMap,
                  store := mPut r { sess with uid := none } s.store }) := by
            simp only [SessionService.unbind, h1, h2, if_neg h3o, hb, hemp, if_true]
          rw [hrm]
          apply svcInv_pushCb
          apply svcInv_pushEv
          constructor
          · refine ⟨hc.ndS, ndKeys_mDrop uid hc.ndU, ?_, ?_, ?_, ?_, ?_, ?_⟩
            · intro r2 sess2 hr
              have hr' : mLook r2 (mPut r { sess with uid := none } s.store) = some sess2 := hr
              show r2 < s.nextRef
              by_cases hrn : r2 = r
              · rw [hrn]
                exact hc.refsLt r sess h2
              · rw [mLook_mPut_ne _ s.store hrn] at hr'
                exact hc.refsLt r2 sess2 hr'
            · intro sid2 r2 e
              have e' : mLook sid2 s.sessions = some r2 := e
              obtain ⟨sess3, f1, f2⟩ := hc.sessWf sid2 r2 e'
              by_cases hrn : r2 = r
              · subst hrn
                rw [h2] at f1
                cases f1
                refine ⟨{ sess with uid := none }, ?_, f2⟩
                show mLook r2 (mPut r2 { sess with uid := none } s.store) = _
                rw [mLook_mPut_self]
              · refine ⟨sess3, ?_, f2⟩
                show mLook r2 (mPut r { sess with uid := none } s.store) = some sess3
                rw [mLook_mPut_ne _ s.store hrn]
                exact f1
            · intro sid2 r2 sess2 u2 e1 e2 eu
              have e1' : mLook sid2 s.sessions = some r2 := e1
              by_cases hrn : r2 = r
              · subst hrn
                have e2' : mLook r2 (mPut r2 { sess with uid := none } s.store) =
                    some sess2 := e2
                rw [mLook_mPut_self] at e2'
                have hss : _ = sess2 := Option.some.inj e2'
                subst hss
                cases eu
              · have e2' : mLook r2 (mPut r { sess with uid := none } s.store) =
                    some sess2 := e2
                rw [mLook_mPut_ne _ s.store hrn] at e2'
                exact hc.uidNz sid2 r2 sess2 u2 e1' e2' eu
            · intro sid2 r2 sess2 u2 e1 e2 eu
              have e1' : mLook sid2 s.sessions = some r2 := e1
              by_cases hrn : r2 = r
              · subst hrn
                have e2' : mLook r2 (mPut r2 { sess with uid := none } s.store) =
                    some sess2 := e2
                rw [mLook_mPut_self] at e2'
                have hss : _ = sess2 := Option.some.inj e2'
                subst hss
                cases eu
              · have e2' : mLook r2 (mPut r { sess with uid := none } s.store) =
                    some sess2 := e2
                rw [mLook_mPut_ne _ s.store hrn] at e2'
                obtain ⟨m2, ni⟩ := hc.fwdIn sid2 r2 sess2 u2 e1' e2' eu
                have hu2 : u2 ≠ uid := by
                  intro hh
                  subst hh
                  unfold bucketOf at m2
                  rw [hb] at m2
                  have m2' : r2 ∈ b := by simpa using m2
                  exact hrn (honly r2 m2')
                constructor
                · show r2 ∈ (mLook u2 (mDrop uid s.uidMap)).getD []
                  rw [mLook_mDrop_ne s.uidMap hu2]
                  exact m2
                · intro u3 hne3
                  show r2 ∉ (mLook u3 (mDrop uid s.uidMap)).getD []
                  by_cases h3u : u3 = uid
                  · rw [h3u, mLook_mDrop_self hc.ndU]
                    simp
                  · rw [mLook_mDrop_ne s.uidMap h3u]
                    exact ni u3 hne3
            · intro u2 b3 e
              have e' : mLook u2 (mDrop uid s.uidMap) = some b3 := e
              have hu2 : u2 ≠ uid := by
                intro hh
                rw [hh, mLook_mDrop_self hc.ndU] at e'
                cases e'
              rw [mLook_mDrop_ne s.uidMap hu2] at e'
              refine ⟨(hc.bwd u2 b3 e').1, ?_⟩
              intro x hx
              obtain ⟨sess2, f1, f2, f3⟩ := (hc.bwd u2 b3 e').2 x hx
              have hxr : x ≠ r := by
                intro hxx
                subst hxx
                rw [h2] at f1
                cases f1
                rw [hueq] at f2
                exact hu2 (Option.some.inj f2).symm
              refine ⟨sess2, ?_, f2, f3⟩
              show mLook x (mPut r { sess with uid := none } s.store) = some sess2
              rw [mLook_mPut_ne _ s.store hxr]
              exact f1
            · intro u2 b3 e
              have e' : mLook u2 (mDrop uid s.uidMap) = some b3 := e
              have hu2 : u2 ≠ uid := by
                intro hh
                rw [hh, mLook_mDrop_self hc.ndU] at e'
                cases e'
              rw [mLook_mDrop_ne s.uidMap hu2] at e'
              exact hc.bNodup u2 b3 e'
          · intro sid2 r2 sess2 e1 e2
            have e1' : mLook sid2 s.sessions = some r2 := e1
            by_cases hrn : r2 = r
            · subst hrn
              have e2' : mLook r2 (mPut r2 { sess with uid := none } s.store) =
                  some sess2 := e2
              rw [mLook_mPut_self] at e2'
              have hss : _ = sess2 := Option.some.inj e2'
              subst hss
              show sess.state = ST_INITED
              exact hok sid2 r2 sess e1' h2
            · have e2' : mLook r2 (mPut r { sess with uid := none } s.store) =
                  some sess2 := e2
              rw [mLook_mPut_ne _ s.store hrn] at e2'
              exact hok sid2 r2 sess2 e1' e2'
        · have hempf :
              (spliceFirst (fun r2 => decide ((mLook r2 s.store).map Sess.id = some sid)) b).isEmpty = false := by
            cases hval :
                (spliceFirst (fun r2 => decide ((mLook r2 s.store).map Sess.id = some sid)) b).isEmpty
            · rfl
            · exact absurd hval hemp
          have hrm : SessionService.unbind sid uid cb s =
              pushCb cb none true (pushEv (Ev.unbindEv r uid)
                { s with
                  uidMap := mPut uid (spliceFirst (fun r2 => decide ((mLook r2 s.store).map Sess.id = some sid)) b) s.uidMap,
                  store := mPut r { sess with uid := none } s.store }) := by
            simp only [SessionService.unbind, h1, h2, if_neg h3o, hb, hempf,
              Bool.false_eq_true, if_false]
          rw [hrm]
          apply svcInv_pushCb
          apply svcInv_pushEv
          constructor
          · refine ⟨hc.ndS, ndKeys_mPut uid _ hc.ndU, ?_, ?_, ?_, ?_, ?_, ?_⟩
            · intro r2 sess2 hr
              have hr' : mLook r2 (mPut r { sess with uid := none } s.store) = some sess2 := hr
              show r2 < s.nextRef
              by_cases hrn : r2 = r
              · rw [hrn]
                exact hc.refsLt r sess h2
              · rw [mLook_mPut_ne _ s.store hrn] at hr'
                exact hc.refsLt r2 sess2 hr'
            · intro sid2 r2 e
              have e' : mLook sid2 s.sessions = some r2 := e
              obtain ⟨sess3, f1, f2⟩ := hc.sessWf sid2 r2 e'
              by_cases hrn : r2 = r
              · subst hrn
                rw [h2] at f1
                cases f1
                refine ⟨{ sess with uid := none }, ?_, f2⟩
                show mLook r2 (mPut r2 { sess with uid := none } s.store) = _
                rw [mLook_mPut_self]
              · refine ⟨sess3, ?_, f2⟩
                show mLook r2 (mPut r { sess with uid := none } s.store) = some sess3
                rw [mLook_mPut_ne _ s.store hrn]
                exact f1
            · intro sid2 r2 sess2 u2 e1 e2 eu
              have e1' : mLook sid2 s.sessions = some r2 := e1
              by_cases hrn : r2 = r
              · subst hrn
                have e2' : mLook r2 (mPut r2 { sess with uid := none } s.store) =
                    some sess2 := e2
                rw [mLook_mPut_self] at e2'
                have hss : _ = sess2 := Option.some.inj e2'
                subst hss
                cases eu
              · have e2' : mLook r2 (mPut r { sess with uid := none } s.store) =
                    some sess2 := e2
                rw [mLook_mPut_ne _ s.store hrn] at e2'
                exact hc.uidNz sid2 r2 sess2 u2 e1' e2' eu
            · intro sid2 r2 sess2 u2 e1 e2 eu
              have e1' : mLook sid2 s.sessions = some r2 := e1
              by_cases hrn : r2 = r
              · subst hrn
                have e2' : mLook r2 (mPut r2 { sess with uid := none } s.store) =
                    some sess2 := e2
                rw [mLook_mPut_self] at e2'
                have hss : _ = sess2 := Option.some.inj e2'
                subst hss
                cases eu
              · have e2' : mLook r2 (mPut r { sess with uid := none } s.store) =
                    some sess2 := e2
                rw [mLook_mPut_ne _ s.store hrn] at e2'
                obtain ⟨m2, ni⟩ := hc.fwdIn sid2 r2 sess2 u2 e1' e2' eu
                constructor
                · by_cases hu2 : u2 = uid
                  · subst hu2
                    show r2 ∈ (mLook u2 (mPut u2
                      (spliceFirst (fun r3 => decide ((mLook r3 s.store).map Sess.id = some sid)) b)
                      s.uidMap)).getD []
                    rw [mLook_mPut_self]
                    simp only [Option.getD_some]
                    have m2' : r2 ∈ b := by
                      unfold bucketOf at m2
                      rw [hb] at m2
                      simpa using m2
                    exact (hs3 r2).mpr ⟨m2', hrn⟩
                  · show r2 ∈ (mLook u2 (mPut uid
                      (spliceFirst (fun r3 => decide ((mLook r3 s.store).map Sess.id = some sid)) b)
                      s.uidMap)).getD []
                    rw [mLook_mPut_ne _ s.uidMap hu2]
                    exact m2
                · intro u3 hne3
                  by_cases h3u : u3 = uid
                  · subst h3u
                    show r2 ∉ (mLook u3 (mPut u3
                      (spliceFirst (fun r3 => decide ((mLook r3 s.store).map Sess.id = some sid)) b)
                      s.uidMap)).getD []
                    rw [mLook_mPut_self]
                    simp only [Option.getD_some]
                    intro hmem3
                    have := (hs3 r2).mp hmem3
                    have hnb : r2 ∉ bucketOf u3 s := ni u3 hne3
                    unfold bucketOf at hnb
                    rw [hb] at hnb
                    exact hnb (by simpa using this.1)
                  · show r2 ∉ (mLook u3 (mPut uid
                      (spliceFirst (fun r3 => decide ((mLook r3 s.store).map Sess.id = some sid)) b)
                      s.uidMap)).getD []
                    rw [mLook_mPut_ne _ s.uidMap h3u]
                    exact ni u3 hne3
            · intro u2 b3 e
              have e' : mLook u2 (mPut uid
                  (spliceFirst (fun r3 => decide ((mLook r3 s.store).map Sess.id = some sid)) b)
                  s.uidMap) = some b3 := e
              by_cases hu2 : u2 = uid
              · subst hu2
                rw [mLook_mPut_self] at e'
                have hbb : _ = b3 := Option.some.inj e'
                subst hbb
                refine ⟨fun hh => absurd hh (by
                  intro hh2
                  rw [hh2] at hempf
                  cases hempf), ?_⟩
                intro x hx
                obtain ⟨hxb, hxr⟩ := (hs3 x).mp hx
                obtain ⟨sess2, f1, f2, f3⟩ := (hc.bwd u2 b hb).2 x hxb
                refine ⟨sess2, ?_, f2, f3⟩
                show mLook x (mPut r { sess with uid := none } s.store) = some sess2
                rw [mLook_mPut_ne _ s.store hxr]
                exact f1
              · rw [mLook_mPut_ne _ s.uidMap hu2] at e'
                refine ⟨(hc.bwd u2 b3 e').1, ?_⟩
                intro x hx
                obtain ⟨sess2, f1, f2, f3⟩ := (hc.bwd u2 b3 e').2 x hx
                have hxr : x ≠ r := by
                  intro hxx
                  subst hxx
                  rw [h2] at f1
                  cases f1
                  rw [hueq] at f2
                  exact hu2 (Option.some.inj f2).symm
                refine ⟨sess2, ?_, f2, f3⟩
                show mLook x (mPut r { sess with uid := none } s.store) = some sess2
                rw [mLook_mPut_ne _ s.store hxr]
                exact f1
            · intro u2 b3 e
              have e' : mLook u2 (mPut uid
                  (spliceFirst (fun r3 => decide ((mLook r3 s.store).map Sess.id = some sid)) b)
                  s.uidMap) = some b3 := e
              by_cases hu2 : u2 = uid
              · subst hu2
                rw [mLook_mPut_self] at e'
                have hbb : _ = b3 := Option.some.inj e'
                subst hbb
                exact hs4
              · rw [mLook_mPut_ne _ s.uidMap hu2] at e'
                exact hc.bNodup u2 b3 e'
          · intro sid2 r2 sess2 e1 e2
            have e1' : mLook sid2 s.sessions = some r2 := e1
            by_cases hrn : r2 = r
            · subst hrn
              have e2' : mLook r2 (mPut r2 { sess with uid := none } s.store) =
                  some sess2 := e2
              rw [mLook_mPut_self] at e2'
              have hss : _ = sess2 := Option.some.inj e2'
              subst hss
              show sess.state = ST_INITED
              exact hok sid2 r2 sess e1' h2
            · have e2' : mLook r2 (mPut r { sess with uid := none } s.store) =
                  some sess2 := e2
              rw [mLook_mPut_ne _ s.store hrn] at e2'
              exact hok sid2 r2 sess2 e1' e2'

/-- Session.closed preserves the invariant for every reference. -/
theorem closed_preserves {s : ServiceState} (hi : SvcInvariant s) (r : Nat)
    (reason : String) : SvcInvariant (Session.closed r reason s) := by
  obtain ⟨hc, hok⟩ := hi
  cases hst : mLook r s.store with
  | none =>
    have hrm : Session.closed r reason s = s := by
      unfold Session.closed
      rw [hst]
    rw [hrm]
    exact ⟨hc, hok⟩
  | some sess =>
    by_cases hcl : sess.state = ST_CLOSED
    · have hrm : Session.closed r reason s = s := by
        unfold Session.closed
        rw [hst]
        simp [hcl]
      rw [hrm]
      exact ⟨hc, hok⟩
    · have hrm : Session.closed r reason s =
          pushEv (Ev.disconnect sess.socket) (pushEv (Ev.closingEv sess.socket reason)
            (pushEv (Ev.closedEv r reason)
              (SessionService.remove sess.id
                { s with store := mPut r { sess with state := ST_CLOSED } s.store }))) := by
        unfold Session.closed
        rw [hst]
        dsimp only
        rw [if_neg hcl]
      rw [hrm]
      apply svcInv_pushEv
      apply svcInv_pushEv
      apply svcInv_pushEv
      have hcs1 : InvCore { s with store := mPut r { sess with state := ST_CLOSED } s.store } := by
        refine ⟨hc.ndS, hc.ndU, ?_, ?_, ?_, ?_, ?_, hc.bNodup⟩
        · intro r2 sess2 hr
          have hr' : mLook r2 (mPut r { sess with state := ST_CLOSED } s.store) =
              some sess2 := hr
          show r2 < s.nextRef
          by_cases hrn : r2 = r
          · rw [hrn]
            exact hc.refsLt r sess hst
          · rw [mLook_mPut_ne _ s.store hrn] at hr'
            exact hc.refsLt r2 sess2 hr'
        · intro sid2 r2 e
          have e' : mLook sid2 s.sessions = some r2 := e
          obtain ⟨sess3, f1, f2⟩ := hc.sessWf sid2 r2 e'
          by_cases hrn : r2 = r
          · subst hrn
            rw [hst] at f1
            cases f1
            refine ⟨{ sess with state := ST_CLOSED }, ?_, f2⟩
            show mLook r2 (mPut r2 { sess with state := ST_CLOSED } s.store) = _
            rw [mLook_mPut_self]
          · refine ⟨sess3, ?_, f2⟩
            show mLook r2 (mPut r { sess with state := ST_CLOSED } s.store) = some sess3
            rw [mLook_mPut_ne _ s.store hrn]
            exact f1
        · intro sid2 r2 sess2 u2 e1 e2 eu
          have e1' : mLook sid2 s.sessions = some r2 := e1
          by_cases hrn : r2 = r
          · subst hrn
            have e2' : mLook r2 (mPut r2 { sess with state := ST_CLOSED } s.store) =
                some sess2 := e2
            rw [mLook_mPut_self] at e2'
            have hss : _ = sess2 := Option.some.inj e2'
            subst hss
            exact hc.uidNz sid2 r2 sess u2 e1' hst eu
          · have e2' : mLook r2 (mPut r { sess with state := ST_CLOSED } s.store) =
                some sess2 := e2
            rw [mLook_mPut_ne _ s.store hrn] at e2'
            exact hc.uidNz sid2 r2 sess2 u2 e1' e2' eu
        · intro sid2 r2 sess2 u2 e1 e2 eu
          have e1' : mLook sid2 s.sessions = some r2 := e1
          by_cases hrn : r2 = r
          · subst hrn
            have e2' : mLook r2 (mPut r2 { sess with state := ST_CLOSED } s.store) =
                some sess2 := e2
            rw [mLook_mPut_self] at e2'
            have hss : _ = sess2 := Option.some.inj e2'
            subst hss
            exact hc.fwdIn sid2 r2 sess u2 e1' hst eu
          · have e2' : mLook r2 (mPut r { sess with state := ST_CLOSED } s.store) =
                some sess2 := e2
            rw [mLook_mPut_ne _ s.store hrn] at e2'
            exact hc.fwdIn sid2 r2 sess2 u2 e1' e2' eu
        · intro u2 b2 e
          have e' : mLook u2 s.uidMap = some b2 := e
          refine ⟨(hc.bwd u2 b2 e').1, ?_⟩
          intro x hx
          obtain ⟨sess2, f1, f2, f3⟩ := (hc.bwd u2 b2 e').2 x hx
          by_cases hxr : x = r
          · subst hxr
            rw [hst] at f1
            cases f1
            refine ⟨{ sess with state := ST_CLOSED }, ?_, f2, f3⟩
            show mLook x (mPut x { sess with state := ST_CLOSED } s.store) = _
            rw [mLook_mPut_self]
          · refine ⟨sess2, ?_, f2, f3⟩
            show mLook x (mPut r { sess with state := ST_CLOSED } s.store) = some sess2
            rw [mLook_mPut_ne _ s.store hxr]
            exact f1
      have hoks1 : ∀ sid2 r2 sess2, sid2 ≠ sess.id →
          mLook sid2 ({ s with store := mPut r { sess with state := ST_CLOSED } s.store } : ServiceState).sessions = some r2 →
          mLook r2 ({ s with store := mPut r { sess with state := ST_CLOSED } s.store } : ServiceState).store = some sess2 →
          sess2.state = ST_INITED := by
        intro sid2 r2 sess2 hne e1 e2
        have e1' : mLook sid2 s.sessions = some r2 := e1
        by_cases hrn : r2 = r
        · subst hrn
          obtain ⟨sess3, f1, f2⟩ := hc.sessWf sid2 r2 e1'
          rw [hst] at f1
          cases f1
          exact absurd f2.symm hne
        · have e2' : mLook r2 (mPut r { sess with state := ST_CLOSED } s.store) =
              some sess2 := e2
          rw [mLook_mPut_ne _ s.store hrn] at e2'
          exact hok sid2 r2 sess2 e1' e2'
      exact (remove_master sess.id hcs1 hoks1).1

/-- Folding the closing loop of kick over any list of sids preserves the
invariant. -/
theorem foldl_closed_preserves (reason2 : String) :
    ∀ (sids : List Nat) (s : ServiceState), SvcInvariant s →
    SvcInvariant (sids.foldl
      (fun st sid =>
        match mLook sid st.sessions with
        | some r => Session.closed r reason2 st
        | none => st) s) := by
  intro sids
  induction sids with
  | nil =>
    intro s h
    exact h
  | cons a t ih =>
    intro s h
    rw [List.foldl_cons]
    apply ih
    show SvcInvariant
      (match mLook a s.sessions with
       | some r => Session.closed r reason2 s
       | none => s)
    cases hl : mLook a s.sessions with
    | some r => exact closed_preserves h r reason2
    | none => exact h

/-- SessionService.kick preserves the invariant. -/
theorem kick_preserves {s : ServiceState} (hi : SvcInvariant s) (uid : Int)
    (reason : KickReason) (cb : Option Nat) :
    SvcInvariant (SessionService.kick uid reason cb s) := by
  unfold SessionService.kick
  cases reason with
  | str r0 =>
    dsimp only
    cases hb : mLook uid s.uidMap with
    | none => exact svcInv_invokeCb _ _ _ hi
    | some bucket =>
      apply svcInv_invokeCb
      exact foldl_closed_preserves r0 _ s hi
  | fn f =>
    dsimp only
    cases hb : mLook uid s.uidMap with
    | none => exact svcInv_invokeCb _ _ _ hi
    | some bucket =>
      apply svcInv_invokeCb
      exact foldl_closed_preserves "kick" _ s hi

/-- SessionService.kickBySessionId preserves the invariant. -/
theorem kickBySessionId_preserves {s : ServiceState} (hi : SvcInvariant s) (sid : Nat)
    (reason : KickReason) (cb : Option Nat) :
    SvcInvariant (SessionService.kickBySessionId sid reason cb s) := by
  unfold SessionService.kickBySessionId
  cases reason with
  | str r0 =>
    dsimp only
    cases hl : mLook sid s.sessions with
    | none => exact svcInv_invokeCb _ _ _ hi
    | some r =>
      apply svcInv_invokeCb
      exact closed_preserves hi r r0
  | fn f =>
    dsimp only
    cases hl : mLook sid s.sessions with
    | none => exact svcInv_invokeCb _ _ _ hi
    | some r =>
      apply svcInv_invokeCb
      exact closed_preserves hi r "kick"

/-- Updating the heap entry of a session with a record that keeps its id,
uid and state (a settings-only change) preserves the invariant. -/
theorem store_update_same {s : ServiceState} (hi : SvcInvariant s) (r : Nat)
    {sess sess2 : Sess} (h2 : mLook r s.store = some sess) (hid : sess2.id = sess.id)
    (huid : sess2.uid = sess.uid) (hst : sess2.state = sess.state) :
    SvcInvariant { s with store := mPut r sess2 s.store } := by
  obtain ⟨hc, hok⟩ := hi
  constructor
  · refine ⟨hc.ndS, hc.ndU, ?_, ?_, ?_, ?_, ?_, hc.bNodup⟩
    · intro r2 sess3 hr
      have hr' : mLook r2 (mPut r sess2 s.store) = some sess3 := hr
      show r2 < s.nextRef
      by_cases hrn : r2 = r
      · rw [hrn]
        exact hc.refsLt r sess h2
      · rw [mLook_mPut_ne _ s.store hrn] at hr'
        exact hc.refsLt r2 sess3 hr'
    · intro sid2 r2 e
      have e' : mLook sid2 s.sessions = some r2 := e
      obtain ⟨sess3, f1, f2⟩ := hc.sessWf sid2 r2 e'
      by_cases hrn : r2 = r
      · subst hrn
        rw [h2] at f1
        cases f1
        refine ⟨sess2, ?_, hid.trans f2⟩
        show mLook r2 (mPut r2 sess2 s.store) = _
        rw [mLook_mPut_self]
      · refine ⟨sess3, ?_, f2⟩
        show mLook r2 (mPut r sess2 s.store) = some sess3
        rw [mLook_mPut_ne _ s.store hrn]
        exact f1
    · intro sid2 r2 sess3 u2 e1 e2 eu
      have e1' : mLook sid2 s.sessions = some r2 := e1
      by_cases hrn : r2 = r
      · subst hrn
        have e2' : mLook r2 (mPut r2 sess2 s.store) = some sess3 := e2
        rw [mLook_mPut_self] at e2'
        have hss : _ = sess3 := Option.some.inj e2'
        subst hss
        rw [huid] at eu
        exact hc.uidNz sid2 r2 sess u2 e1' h2 eu
      · have e2' : mLook r2 (mPut r sess2 s.store) = some sess3 := e2
        rw [mLook_mPut_ne _ s.store hrn] at e2'
        exact hc.uidNz sid2 r2 sess3 u2 e1' e2' eu
    · intro sid2 r2 sess3 u2 e1 e2 eu
      have e1' : mLook sid2 s.sessions = some r2 := e1
      by_cases hrn : r2 = r
      · subst hrn
        have e2' : mLook r2 (mPut r2 sess2 s.store) = some sess3 := e2
        rw [mLook_mPut_self] at e2'
        have hss : _ = sess3 := Option.some.inj e2'
        subst hss
        rw [huid] at eu
        exact hc.fwdIn sid2 r2 sess u2 e1' h2 eu
      · have e2' : mLook r2 (mPut r sess2 s.store) = some sess3 := e2
        rw [mLook_mPut_ne _ s.store hrn] at e2'
        exact hc.fwdIn sid2 r2 sess3 u2 e1' e2' eu
    · intro u2 b2 e
      have e' : mLook u2 s.uidMap = some b2 := e
      refine ⟨(hc.bwd u2 b2 e').1, ?_⟩
      intro x hx
      obtain ⟨sess3, f1, f2, f3⟩ := (hc.bwd u2 b2 e').2 x hx
      by_cases hxr : x = r
      · subst hxr
        rw [h2] at f1
        cases f1
        refine ⟨sess2, ?_, huid.trans f2, ?_⟩
        · show mLook x (mPut x sess2 s.store) = _
          rw [mLook_mPut_self]
        · rw [hid]
          exact f3
      · refine ⟨sess3, ?_, f2, f3⟩
        show mLook x (mPut r sess2 s.store) = some sess3
        rw [mLook_mPut_ne _ s.store hxr]
        exact f1
  · intro sid2 r2 sess3 e1 e2
    have e1' : mLook sid2 s.sessions = some r2 := e1
    by_cases hrn : r2 = r
    · subst hrn
      have e2' : mLook r2 (mPut r2 sess2 s.store) = some sess3 := e2
      rw [mLook_mPut_self] at e2'
      have hss : _ = sess3 := Option.some.inj e2'
      subst hss
      rw [hst]
      exact hok sid2 r2 sess e1' h2
    · have e2' : mLook r2 (mPut r sess2 s.store) = some sess3 := e2
      rw [mLook_mPut_ne _ s.store hrn] at e2'
      exact hok sid2 r2 sess3 e1' e2'

theorem set_keeps_id (key : SetKey) (value : JsVal) (sess : Sess) :
    (sess.set key value).id = sess.id ∧ (sess.set key value).uid = sess.uid ∧
    (sess.set key value).state = sess.state := by
  cases key <;> exact ⟨rfl, rfl, rfl⟩

theorem foldl_set_keeps (l : List (String × JsVal)) :
    ∀ sess : Sess,
    (l.foldl (fun ss kv => ss.set (SetKey.strKey kv.1) kv.2) sess).id = sess.id ∧
    (l.foldl (fun ss kv => ss.set (SetKey.strKey kv.1) kv.2) sess).uid = sess.uid ∧
    (l.foldl (fun ss kv => ss.set (SetKey.strKey kv.1) kv.2) sess).state = sess.state := by
  induction l with
  | nil =>
    intro sess
    exact ⟨rfl, rfl, rfl⟩
  | cons kv t ih =>
    intro sess
    rw [List.foldl_cons]
    obtain ⟨i1, i2, i3⟩ := ih (sess.set (SetKey.strKey kv.1) kv.2)
    exact ⟨i1, i2, i3⟩

/-- SessionService.import preserves the invariant. -/
theorem importKV_preserves {s : ServiceState} (hi : SvcInvariant s) (sid : Nat)
    (key : SetKey) (value : JsVal) (cb : Option Nat) :
    SvcInvariant (SessionService.importKV sid key value cb s) := by
  cases h1 : mLook sid s.sessions with
  | none =>
    have hrm : SessionService.importKV sid key value cb s =
        invokeCb cb (some (sessNotExistMsg sid)) false s := by
      simp only [SessionService.importKV, h1]
    rw [hrm]
    exact svcInv_invokeCb _ _ _ hi
  | some r =>
    cases h2 : mLook r s.store with
    | none =>
      have hrm : SessionService.importKV sid key value cb s = s := by
        simp only [SessionService.importKV, h1, h2]
      rw [hrm]
      exact hi
    | some sess =>
      have hrm : SessionService.importKV sid key value cb s =
          invokeCb cb none false { s with store := mPut r (sess.set key value) s.store } := by
        simp only [SessionService.importKV, h1, h2]
      rw [hrm]
      apply svcInv_invokeCb
      obtain ⟨k1, k2, k3⟩ := set_keeps_id key value sess
      exact store_update_same hi r h2 k1 k2 k3

/-- SessionService.importAll preserves the invariant. -/
theorem importAll_preserves {s : ServiceState} (hi : SvcInvariant s) (sid : Nat)
    (settings : List (String × JsVal)) (cb : Option Nat) :
    SvcInvariant (SessionService.importAll sid settings cb s) := by
  cases h1 : mLook sid s.sessions with
  | none =>
    have hrm : SessionService.importAll sid settings cb s =
        invokeCb cb (some (sessNotExistMsg sid)) false s := by
      simp only [SessionService.importAll, h1]
    rw [hrm]
    exact svcInv_invokeCb _ _ _ hi
  | some r =>
    cases h2 : mLook r s.store with
    | none =>
      have hrm : SessionService.importAll sid settings cb s = s := by
        simp only [SessionService.importAll, h1, h2]
      rw [hrm]
      exact hi
    | some sess =>
      have hrm : SessionService.importAll sid settings cb s =
          invokeCb cb none false
            { s with store := mPut r (settings.foldl (fun ss kv => ss.set (SetKey.strKey kv.1) kv.2) sess) s.store } := by
        simp only [SessionService.importAll, h1, h2]
      rw [hrm]
      apply svcInv_invokeCb
      obtain ⟨k1, k2, k3⟩ := foldl_set_keeps settings sess
      exact store_update_same hi r h2 k1 k2 k3

/-- SessionService.remove preserves the invariant. -/
theorem remove_preserves {s : ServiceState} (hi : SvcInvariant s) (sid : Nat) :
    SvcInvariant (SessionService.remove sid s) := by
  obtain ⟨hc, hok⟩ := hi
  exact (remove_master sid hc (fun sid2 r sess _ e1 e2 => hok sid2 r sess e1 e2)).1

/-- Every state reachable by the coherent call discipline satisfies the
registry invariant. -/
theorem reach_inv {s : ServiceState} (h : Reach true s) : SvcInvariant s := by
  induction h with
  | init b => exact svcInvariant_init b
  | step hr hs ih =>
    cases hs with
    | create sid fid sock s0 hcond => exact create_preserves ih sid fid sock (hcond rfl)
    | bind sid uid cb s0 hcond => exact bind_preserves ih sid uid cb (hcond rfl)
    | unbind sid uid cb s0 => exact unbind_preserves ih sid uid cb
    | removeStep sid s0 => exact remove_preserves ih sid
    | importStep sid key value cb s0 => exact importKV_preserves ih sid key value cb
    | importAllStep sid settings cb s0 => exact importAll_preserves ih sid settings cb
    | kickStep uid reason cb s0 => exact kick_preserves ih uid reason cb
    | kickBySid sid reason cb s0 => exact kickBySessionId_preserves ih sid reason cb
    | closedStep r reason s0 => exact closed_preserves ih r reason

/-- Marking a stored session ST_CLOSED keeps the core invariant and keeps
every other registered session live. -/
theorem closed_mark_core {s : ServiceState} {r : Nat} {sess : Sess}
    (hc : InvCore s) (hok : statesOk s) (hst : mLook r s.store = some sess) :
    InvCore { s with store := mPut r { sess with state := ST_CLOSED } s.store } ∧
    (∀ sid2 r2 sess2, sid2 ≠ sess.id →
      mLook sid2 ({ s with store := mPut r { sess with state := ST_CLOSED } s.store } : ServiceState).sessions = some r2 →
      mLook r2 ({ s with store := mPut r { sess with state := ST_CLOSED } s.store } : ServiceState).store = some sess2 →
      sess2.state = ST_INITED) := by
  constructor
  · refine ⟨hc.ndS, hc.ndU, ?_, ?_, ?_, ?_, ?_, hc.bNodup⟩
    · intro r2 sess2 hr
      have hr' : mLook r2 (mPut r { sess with state := ST_CLOSED } s.store) = some sess2 := hr
      show r2 < s.nextRef
      by_cases hrn : r2 = r
      · rw [hrn]
        exact hc.refsLt r sess hst
      · rw [mLook_mPut_ne _ s.store hrn] at hr'
        exact hc.refsLt r2 sess2 hr'
    · intro sid2 r2 e
      have e' : mLook sid2 s.sessions = some r2 := e
      obtain ⟨sess3, f1, f2⟩ := hc.sessWf sid2 r2 e'
      by_cases hrn : r2 = r
      · subst hrn
        rw [hst] at f1
        cases f1
        refine ⟨{ sess with state := ST_CLOSED }, ?_, f2⟩
        show mLook r2 (mPut r2 { sess with state := ST_CLOSED } s.store) = _
        rw [mLook_mPut_self]
      · refine ⟨sess3, ?_, f2⟩
        show mLook r2 (mPut r { sess with state := ST_CLOSED } s.store) = some sess3
        rw [mLook_mPut_ne _ s.store hrn]
        exact f1
    · intro sid2 r2 sess2 u2 e1 e2 eu
      have e1' : mLook sid2 s.sessions = some r2 := e1
      by_cases hrn : r2 = r
      · subst hrn
        have e2' : mLook r2 (mPut r2 { sess with state := ST_CLOSED } s.store) =
            some sess2 := e2
        rw [mLook_mPut_self] at e2'
        have hss : _ = sess2 := Option.some.inj e2'
        subst hss
        exact hc.uidNz sid2 r2 sess u2 e1' hst eu
      · have e2' : mLook r2 (mPut r { sess with state := ST_CLOSED } s.store) =
            some sess2 := e2
        rw [mLook_mPut_ne _ s.store hrn] at e2'
        exact hc.uidNz sid2 r2 sess2 u2 e1' e2' eu
    · intro sid2 r2 sess2 u2 e1 e2 eu
      have e1' : mLook sid2 s.sessions = some r2 := e1
      by_cases hrn : r2 = r
      · subst hrn
        have e2' : mLook r2 (mPut r2 { sess with state := ST_CLOSED } s.store) =
            some sess2 := e2
        rw [mLook_mPut_self] at e2'
        have hss : _ = sess2 := Option.some.inj e2'
        subst hss
        exact hc.fwdIn sid2 r2 sess u2 e1' hst eu
      · have e2' : mLook r2 (mPut r { sess with state := ST_CLOSED } s.store) =
            some sess2 := e2
        rw [mLook_mPut_ne _ s.store hrn] at e2'
        exact hc.fwdIn sid2 r2 sess2 u2 e1' e2' eu
    · intro u2 b2 e
      have e' : mLook u2 s.uidMap = some b2 := e
      refine ⟨(hc.bwd u2 b2 e').1, ?_⟩
      intro x hx
      obtain ⟨sess2, f1, f2, f3⟩ := (hc.bwd u2 b2 e').2 x hx
      by_cases hxr : x = r
      · subst hxr
        rw [hst] at f1
        cases f1
        refine ⟨{ sess with state := ST_CLOSED }, ?_, f2, f3⟩
        show mLook x (mPut x { sess with state := ST_CLOSED } s.store) = _
        rw [mLook_mPut_self]
      · refine ⟨sess2, ?_, f2, f3⟩
        show mLook x (mPut r { sess with state := ST_CLOSED } s.store) = some sess2
        rw [mLook_mPut_ne _ s.store hxr]
        exact f1
  · intro sid2 r2 sess2 hne e1 e2
    have e1' : mLook sid2 s.sessions = some r2 := e1
    by_cases hrn : r2 = r
    · subst hrn
      obtain ⟨sess3, f1, f2⟩ := hc.sessWf sid2 r2 e1'
      rw [hst] at f1
      cases f1
      exact absurd f2.symm hne
    · have e2' : mLook r2 (mPut r { sess with state := ST_CLOSED } s.store) = some sess2 := e2
      rw [mLook_mPut_ne _ s.store hrn] at e2'
      exact hok sid2 r2 sess2 e1' e2'

/-- Closing the head session of a uid bucket: the full effect of one
Session.closed call as used by the kick loop. -/
theorem closed_kick_step {s : ServiceState} {u : Int} {r : Nat} {rest : List Nat}
    (hi : SvcInvariant s) (hb : mLook u s.uidMap = some (r :: rest)) (reason : String) :
    ∃ sess, mLook r s.store = some sess ∧ sess.uid = some u ∧
      mLook sess.id s.sessions = some r ∧ sess.state = ST_INITED ∧
      (Session.closed r reason s).sessions = mDrop sess.id s.sessions ∧
      (Session.closed r reason s).store = mPut r { sess with state := ST_CLOSED } s.store ∧
      mLook u (Session.closed r reason s).uidMap = (if rest.isEmpty then none else some rest) ∧
      (Session.closed r reason s).events =
        s.events ++ [Ev.closedEv r reason, Ev.closingEv sess.socket reason,
          Ev.disconnect sess.socket] ∧
      SvcInvariant (Session.closed r reason s) := by
  obtain ⟨hc, hok⟩ := hi
  obtain ⟨sess, hst, huid, hsl⟩ := (hc.bwd u (r :: rest) hb).2 r (by simp)
  have hini : sess.state = ST_INITED := hok sess.id r sess hsl hst
  have hcl : ¬ (sess.state = ST_CLOSED) := by
    rw [hini]
    decide
  have hrm : Session.closed r reason s =
      pushEv (Ev.disconnect sess.socket) (pushEv (Ev.closingEv sess.socket reason)
        (pushEv (Ev.closedEv r reason)
          (SessionService.remove sess.id
            { s with store := mPut r { sess with state := ST_CLOSED } s.store }))) := by
    unfold Session.closed
    rw [hst]
    dsimp only
    rw [if_neg hcl]
  obtain ⟨hcs1, hoks1⟩ := closed_mark_core hc hok hst
  have hrem := remove_master sess.id hcs1 hoks1
  have he1 : mLook sess.id ({ s with store := mPut r { sess with state := ST_CLOSED } s.store } : ServiceState).sessions = some r := hsl
  have he2 : mLook r ({ s with store := mPut r { sess with state := ST_CLOSED } s.store } : ServiceState).store = some { sess with state := ST_CLOSED } := by
    show mLook r (mPut r { sess with state := ST_CLOSED } s.store) = _
    rw [mLook_mPut_self]
  have he3 : ({ sess with state := ST_CLOSED } : Sess).uid = some u := huid
  have he4 : mLook u ({ s with store := mPut r { sess with state := ST_CLOSED } s.store } : ServiceState).uidMap = some (r :: rest) := hb
  have hbuck := (hrem.2.2.2.2 r { sess with state := ST_CLOSED } u (r :: rest) he1 he2 he3 he4).2
  have hsplice : spliceFirst
      (fun r2 => decide ((mLook r2 ({ s with store := mPut r { sess with state := ST_CLOSED } s.store } : ServiceState).store).map Sess.id = some sess.id))
      (r :: rest) = rest := by
    show spliceFirst
      (fun r2 => decide ((mLook r2 (mPut r { sess with state := ST_CLOSED } s.store)).map Sess.id = some sess.id))
      (r :: rest) = rest
    simp [spliceFirst, mLook_mPut_self]
  rw [hsplice] at hbuck
  refine ⟨sess, hst, huid, hsl, hini, ?_, ?_, ?_, ?_, ?_⟩
  · rw [hrm]
    simp only [pushEv_sessions]
    rw [hrem.2.1]
  · rw [hrm]
    simp only [pushEv_store]
    rw [(remove_frame sess.id _).1]
  · rw [hrm]
    simp only [pushEv_uidMap]
    exact hbuck
  · rw [hrm]
    simp only [pushEv_events, (remove_frame sess.id _).2.1]
    show s.events ++ [Ev.closedEv r reason] ++ [Ev.closingEv sess.socket reason] ++
      [Ev.disconnect sess.socket] = _
    simp [List.append_assoc]
  · exact closed_preserves ⟨hc, hok⟩ r reason

/-- Effect of the kick closing loop on a whole bucket: starting from a
state whose bucket for u is exactly rs, folding the loop over the
snapshotted session ids closes every bucket member, drops each sid from
the table, deletes the bucket and only appends to the trace. -/
theorem closeList (u : Int) (reason : String) :
    ∀ (rs : List Nat) (s : ServiceState), SvcInvariant s →
    mLook u s.uidMap = (if rs.isEmpty then none else some rs) →
    SvcInvariant ((rs.filterMap (fun r => (mLook r s.store).map Sess.id)).foldl
      (fun st sid =>
        match mLook sid st.sessions with
        | some r => Session.closed r reason st
        | none => st) s) ∧
    ((rs.filterMap (fun r => (mLook r s.store).map Sess.id)).foldl
      (fun st sid =>
        match mLook sid st.sessions with
        | some r => Session.closed r reason st
        | none => st) s).sessions.length + rs.length = s.sessions.length ∧
    mLook u ((rs.filterMap (fun r => (mLook r s.store).map Sess.id)).foldl
      (fun st sid =>
        match mLook sid st.sessions with
        | some r => Session.closed r reason st
        | none => st) s).uidMap = none ∧
    (∀ r ∈ rs, ∃ sess, mLook r s.store = some sess ∧
      mLook r ((rs.filterMap (fun r => (mLook r s.store).map Sess.id)).foldl
        (fun st sid =>
          match mLook sid st.sessions with
          | some r => Session.closed r reason st
          | none => st) s).store = some { sess with state := ST_CLOSED } ∧
      mLook sess.id ((rs.filterMap (fun r => (mLook r s.store).map Sess.id)).foldl
        (fun st sid =>
          match mLook sid st.sessions with
          | some r => Session.closed r reason st
          | none => st) s).sessions = none ∧
      Ev.closedEv r reason ∈ ((rs.filterMap (fun r => (mLook r s.store).map Sess.id)).foldl
        (fun st sid =>
          match mLook sid st.sessions with
          | some r => Session.closed r reason st
          | none => st) s).events) ∧
    (∀ r2, r2 ∉ rs → mLook r2 ((rs.filterMap (fun r => (mLook r s.store).map Sess.id)).foldl
      (fun st sid =>
        match mLook sid st.sessions with
        | some r => Session.closed r reason st
        | none => st) s).store = mLook r2 s.store) ∧
    (∀ sid2, mLook sid2 s.sessions = none →
      mLook sid2 ((rs.filterMap (fun r => (mLook r s.store).map Sess.id)).foldl
        (fun st sid =>
          match mLook sid st.sessions with
          | some r => Session.closed r reason st
          | none => st) s).sessions = none) ∧
    (∃ tail, ((rs.filterMap (fun r => (mLook r s.store).map Sess.id)).foldl
      (fun st sid =>
        match mLook sid st.sessions with
        | some r => Session.closed r reason st
        | none => st) s).events = s.events ++ tail) := by
  intro rs
  induction rs with
  | nil =>
    intro s hi hb
    simp only [List.filterMap_nil, List.foldl_nil]
    refine ⟨hi, by simp, by simpa using hb, ?_, ?_, ?_, ?_⟩
    · intro x hx
      cases hx
    · intro r2 hr2
      trivial
    · intro sid2 h
      exact h
    · exact ⟨[], by simp⟩
  | cons r rest ih =>
    intro s hi hb
    have hb' : mLook u s.uidMap = some (r :: rest) := by simpa using hb
    obtain ⟨sess, hst, huid, hsl, hini, q1, q2, q3, q4, q5⟩ :=
      closed_kick_step hi hb' reason
    have hrnotin : r ∉ rest := by
      have hnd := hi.1.bNodup u (r :: rest) hb'
      exact (List.nodup_cons.mp hnd).1
    have hsids : (r :: rest).filterMap (fun r2 => (mLook r2 s.store).map Sess.id) =
        sess.id :: rest.filterMap (fun r2 => (mLook r2 s.store).map Sess.id) := by
      rw [List.filterMap_cons, hst]
      rfl
    have hcongr : rest.filterMap (fun r2 => (mLook r2 s.store).map Sess.id) =
        rest.filterMap (fun r2 => (mLook r2 (Session.closed r reason s).store).map Sess.id) := by
      apply List.filterMap_congr
      intro a ha
      have har : a ≠ r := by
        intro hh
        rw [hh] at ha
        exact hrnotin ha
      rw [q2, mLook_mPut_ne _ s.store har]
    rw [hsids, List.foldl_cons, hsl]
    dsimp only
    rw [hcongr]
    have ihcond : mLook u (Session.closed r reason s).uidMap =
        (if rest.isEmpty then none else some rest) := q3
    obtain ⟨j1, j2, j3, j4, j5, j6, j7⟩ := ih (Session.closed r reason s) q5 ihcond
    have hlen1 : (Session.closed r reason s).sessions.length + 1 = s.sessions.length := by
      rw [q1]
      exact mDrop_length hsl
    refine ⟨j1, ?_, j3, ?_, ?_, ?_, ?_⟩
    · rw [List.length_cons]
      omega
    · intro x hx
      rcases List.mem_cons.mp hx with hh | hh
      · subst hh
        refine ⟨sess, hst, ?_, ?_, ?_⟩
        · rw [j5 x hrnotin, q2, mLook_mPut_self]
        · apply j6
          rw [q1]
          exact mLook_mDrop_self hi.1.ndS
        · obtain ⟨tail, htail⟩ := j7
          rw [htail, q4]
          simp
      · obtain ⟨sess2, g1, g2, g3, g4⟩ := j4 x hh
        have hxr : x ≠ r := fun hh2 => hrnotin (hh2 ▸ hh)
        rw [q2, mLook_mPut_ne _ s.store hxr] at g1
        exact ⟨sess2, g1, g2, g3, g4⟩
    · intro r2 hr2
      have hr2r : r2 ≠ r := fun hh => hr2 (by simp [hh])
      have hr2rest : r2 ∉ rest := fun hh => hr2 (by simp [hh])
      rw [j5 r2 hr2rest, q2, mLook_mPut_ne _ s.store hr2r]
    · intro sid2 hnone
      apply j6
      rw [q1]
      by_cases hs2 : sid2 = sess.id
      · subst hs2
        exact mLook_mDrop_self hi.1.ndS
      · rw [mLook_mDrop_ne s.sessions hs2]
        exact hnone
    · obtain ⟨tail, htail⟩ := j7
      refine ⟨[Ev.closedEv r reason, Ev.closingEv sess.socket reason,
        Ev.disconnect sess.socket] ++ tail, ?_⟩
      rw [htail, q4]
      simp

/-- Claim C5: kick closes every session bound to the uid and always
succeeds. Under the registry invariant, after kick(uid, reason, cb) the
session count has dropped by exactly the number of sessions that were in
the uid bucket, the bucket is gone, every one of those sessions is marked
ST_CLOSED in the heap with its sid deregistered and a closed notification
with the given reason in the trace, the callback is invoked deferred with
no error, and with no bucket the call is a pure no-op success. -/
theorem kick_closes_all (s : ServiceState) (uid : Int) (reason : String) (cb : Nat)
    (hi : SvcInvariant s) :
    SessionService.getSessionsCount (SessionService.kick uid (KickReason.str reason) (some cb) s)
        + (bucketOf uid s).length = SessionService.getSessionsCount s ∧
    mLook uid (SessionService.kick uid (KickReason.str reason) (some cb) s).uidMap = none ∧
    (∀ r ∈ bucketOf uid s, ∃ sess, mLook r s.store = some sess ∧
      mLook r (SessionService.kick uid (KickReason.str reason) (some cb) s).store =
        some { sess with state := ST_CLOSED } ∧
      mLook sess.id (SessionService.kick uid (KickReason.str reason) (some cb) s).sessions = none ∧
      Ev.closedEv r reason ∈ (SessionService.kick uid (KickReason.str reason) (some cb) s).events) ∧
    (∃ mid, (SessionService.kick uid (KickReason.str reason) (some cb) s).events =
      s.events ++ mid ++ [Ev.cbCall cb none true]) ∧
    (bucketOf uid s = [] →
      SessionService.kick uid (KickReason.str reason) (some cb) s = pushCb cb none true s) := by
  cases hb : mLook uid s.uidMap with
  | none =>
    have hrm : SessionService.kick uid (KickReason.str reason) (some cb) s =
        pushCb cb none true s := by
      simp only [SessionService.kick, hb, invokeCb]
    have hbk : bucketOf uid s = [] := by
      unfold bucketOf
      rw [hb]
      rfl
    rw [hrm, hbk]
    refine ⟨by simp [SessionService.getSessionsCount, pushCb, pushEv], ?_, ?_, ⟨[], by simp [pushCb, pushEv]⟩, fun _ => rfl⟩
    · show mLook uid s.uidMap = none
      exact hb
    · intro r hr
      cases hr
  | some bucket =>
    have hne : bucket ≠ [] := (hi.1.bwd uid bucket hb).1
    have hcond : mLook uid s.uidMap = (if bucket.isEmpty then none else some bucket) := by
      rw [hb]
      cases bucket with
      | nil => exact absurd rfl hne
      | cons x t => rfl
    obtain ⟨j1, j2, j3, j4, j5, j6, j7⟩ := closeList uid reason bucket s hi hcond
    have hbk : bucketOf uid s = bucket := by
      unfold bucketOf
      rw [hb]
      rfl
    have hrm : SessionService.kick uid (KickReason.str reason) (some cb) s =
        pushCb cb none true
          ((bucket.filterMap (fun r => (mLook r s.store).map Sess.id)).foldl
            (fun st sid =>
              match mLook sid st.sessions with
              | some r => Session.closed r reason st
              | none => st) s) := by
      simp only [SessionService.kick, hb, invokeCb]
    rw [hrm, hbk]
    refine ⟨?_, ?_, ?_, ?_, ?_⟩
    · show ((bucket.filterMap (fun r => (mLook r s.store).map Sess.id)).foldl
        (fun st sid =>
          match mLook sid st.sessions with
          | some r => Session.closed r reason st
          | none => st) s).sessions.length + bucket.length = s.sessions.length
      exact j2
    · show mLook uid ((bucket.filterMap (fun r => (mLook r s.store).map Sess.id)).foldl
        (fun st sid =>
          match mLook sid st.sessions with
          | some r => Session.closed r reason st
          | none => st) s).uidMap = none
      exact j3
    · intro r hr
      obtain ⟨sess, g1, g2, g3, g4⟩ := j4 r hr
      refine ⟨sess, g1, g2, g3, ?_⟩
      show Ev.closedEv r reason ∈
        ((bucket.filterMap (fun r => (mLook r s.store).map Sess.id)).foldl
          (fun st sid =>
            match mLook sid st.sessions with
            | some r => Session.closed r reason st
            | none => st) s).events ++ [Ev.cbCall cb none true]
      exact List.mem_append_left _ g4
    · obtain ⟨tail, htail⟩ := j7
      refine ⟨tail, ?_⟩
      show ((bucket.filterMap (fun r => (mLook r s.store).map Sess.id)).foldl
        (fun st sid =>
          match mLook sid st.sessions with
          | some r => Session.closed r reason st
          | none => st) s).events ++ [Ev.cbCall cb none true] = s.events ++ tail ++ [Ev.cbCall cb none true]
      rw [htail]
    · intro hcontra
      exact absurd hcontra hne

/-! ## Claim C2: the sid table and the uid index stay consistent -/

/-- The session record produced by creating session 1 on frontend f1 with
socket 0 and binding it to uid 5. -/
def sessF1b5 : Sess := { id := 1, frontendId := "f1", uid := some 5, settings := [], state := ST_INITED, socket := 0 }

/-- Claim C2, amended: for every state reachable from the empty registry
by the public operations under the coherent call discipline (bind is
called with nonzero uids and create with fresh sids), every registered
session with a non-null uid appears in the uid index exactly once, namely
in the bucket of its own uid, and conversely every session sitting in a
bucket is registered under its sid with a uid equal to the bucket key. -/
theorem registry_uid_index_invariant :
    ∀ s : ServiceState, Reach true s →
      (∀ sid r sess u, mLook sid s.sessions = some r → mLook r s.store = some sess →
        sess.uid = some u →
          r ∈ bucketOf u s ∧ (bucketOf u s).Nodup ∧ ∀ u2, u2 ≠ u → r ∉ bucketOf u2 s) ∧
      (∀ u b, mLook u s.uidMap = some b → ∀ r2 ∈ b,
        ∃ sess, mLook r2 s.store = some sess ∧ sess.uid = some u ∧
          mLook sess.id s.sessions = some r2) := by
  intro s h
  have hi := reach_inv h
  constructor
  · intro sid r sess u e1 e2 eu
    refine ⟨(hi.1.fwdIn sid r sess u e1 e2 eu).1, ?_,
      (hi.1.fwdIn sid r sess u e1 e2 eu).2⟩
    unfold bucketOf
    cases hlk : mLook u s.uidMap with
    | none => simp
    | some b =>
      simp only [Option.getD_some]
      exact hi.1.bNodup u b hlk
  · intro u b hb
    exact (hi.1.bwd u b hb).2

/-- Witness for the amended claim C2 on a concrete reachable registry:
one session created and bound to uid 5 sits in the bucket of uid 5, which
is duplicate free. -/
theorem registry_uid_index_invariant_witness :
    (0 : Nat) ∈ bucketOf 5
      (SessionService.bind 1 5 7 (SessionService.create 1 "f1" 0 (initState false))) ∧
    (bucketOf 5
      (SessionService.bind 1 5 7 (SessionService.create 1 "f1" 0 (initState false)))).Nodup := by
  have h := registry_uid_index_invariant
    (SessionService.bind 1 5 7 (SessionService.create 1 "f1" 0 (initState false)))
    (Reach.step
      (Reach.step (Reach.init true false)
        (Step.create true 1 "f1" 0 (initState false) (fun _ => by decide)))
      (Step.bind true 1 5 7 (SessionService.create 1 "f1" 0 (initState false))
        (fun _ => by decide)))
  have h2 := h.1 1 0
    sessF1b5
    5 (by decide) (by decide) rfl
  exact ⟨h2.1, h2.2.1⟩

/-- Claim C2, counterexample: the invariant fails on a state reachable by
unrestricted public operations. Binding session 1 to uid 0 succeeds along
the unbound path because 0 is falsy in JS, and a second bind to uid 5 then
succeeds as well for the same reason, leaving the session in the bucket of
uid 0 while its uid field says 5: the session appears in two buckets and
the bucket of uid 0 holds a session whose uid is not 0. -/
theorem registry_uid_index_cex :
    Reach false
      (SessionService.bind 1 5 8 (SessionService.bind 1 0 7
        (SessionService.create 1 "f1" 0 (initState false)))) ∧
    mLook 1 (SessionService.bind 1 5 8 (SessionService.bind 1 0 7
        (SessionService.create 1 "f1" 0 (initState false)))).sessions = some 0 ∧
    mLook 0 (SessionService.bind 1 5 8 (SessionService.bind 1 0 7
        (SessionService.create 1 "f1" 0 (initState false)))).store =
      some sessF1b5 ∧
    (0 : Nat) ∈ bucketOf 0 (SessionService.bind 1 5 8 (SessionService.bind 1 0 7
        (SessionService.create 1 "f1" 0 (initState false)))) ∧
    (0 : Nat) ∈ bucketOf 5 (SessionService.bind 1 5 8 (SessionService.bind 1 0 7
        (SessionService.create 1 "f1" 0 (initState false)))) ∧
    ¬ (∀ u b, mLook u (SessionService.bind 1 5 8 (SessionService.bind 1 0 7
          (SessionService.create 1 "f1" 0 (initState false)))).uidMap = some b →
        ∀ r2 ∈ b, ∃ sess, mLook r2 (SessionService.bind 1 5 8 (SessionService.bind 1 0 7
            (SessionService.create 1 "f1" 0 (initState false)))).store = some sess ∧
          sess.uid = some u ∧
          mLook sess.id (SessionService.bind 1 5 8 (SessionService.bind 1 0 7
            (SessionService.create 1 "f1" 0 (initState false)))).sessions = some r2) := by
  refine ⟨?_, by decide, by decide, by decide, by decide, ?_⟩
  · exact Reach.step
      (Reach.step
        (Reach.step (Reach.init false false)
          (Step.create false 1 "f1" 0 (initState false) (fun h => Bool.noConfusion h)))
        (Step.bind false 1 0 7 (SessionService.create 1 "f1" 0 (initState false))
          (fun h => Bool.noConfusion h)))
      (Step.bind false 1 5 8 (SessionService.bind 1 0 7
        (SessionService.create 1 "f1" 0 (initState false)))
        (fun h => Bool.noConfusion h))
  · intro hcl
    obtain ⟨sess, f1, f2, f3⟩ := hcl 0 [0] (by decide) 0 (by decide)
    have hlit : sess = sessF1b5 := by
      have hstore : mLook 0 (SessionService.bind 1 5 8 (SessionService.bind 1 0 7
          (SessionService.create 1 "f1" 0 (initState false)))).store =
        some sessF1b5 := by decide
      rw [hstore] at f1
      exact (Option.some.inj f1).symm
    rw [hlit] at f2
    exact absurd f2 (by decide)

/-- Witness for claim C5 on a concrete reachable registry with two
sessions bound to uid 5: kicking uid 5 removes both from the sid table
and deletes the bucket. -/
theorem kick_closes_all_witness :
    SessionService.getSessionsCount (SessionService.kick 5 (KickReason.str "admin") (some 9)
        (SessionService.bind 2 5 8 (SessionService.create 2 "f1" 1
          (SessionService.bind 1 5 7 (SessionService.create 1 "f1" 0 (initState false))))))
      + (bucketOf 5 (SessionService.bind 2 5 8 (SessionService.create 2 "f1" 1
          (SessionService.bind 1 5 7 (SessionService.create 1 "f1" 0 (initState false)))))).length
      = SessionService.getSessionsCount (SessionService.bind 2 5 8 (SessionService.create 2 "f1" 1
          (SessionService.bind 1 5 7 (SessionService.create 1 "f1" 0 (initState false))))) ∧
    mLook 5 (SessionService.kick 5 (KickReason.str "admin") (some 9)
        (SessionService.bind 2 5 8 (SessionService.create 2 "f1" 1
          (SessionService.bind 1 5 7 (SessionService.create 1 "f1" 0 (initState false)))))).uidMap
      = none := by
  have h := kick_closes_all
    (SessionService.bind 2 5 8 (SessionService.create 2 "f1" 1
      (SessionService.bind 1 5 7 (SessionService.create 1 "f1" 0 (initState false)))))
    5 "admin" 9
    (reach_inv (Reach.step
      (Reach.step
        (Reach.step
          (Reach.step (Reach.init true false)
            (Step.create true 1 "f1" 0 (initState false) (fun _ => by decide)))
          (Step.bind true 1 5 7 (SessionService.create 1 "f1" 0 (initState false))
            (fun _ => by decide)))
        (Step.create true 2 "f1" 1
          (SessionService.bind 1 5 7 (SessionService.create 1 "f1" 0 (initState false)))
          (fun _ => by decide)))
      (Step.bind true 2 5 8
        (SessionService.create 2 "f1" 1
          (SessionService.bind 1 5 7 (SessionService.create 1 "f1" 0 (initState false))))
        (fun _ => by decide))))
  exact ⟨h.1, h.2.1⟩

/-! ## Claim C1: precedence of the bind cases -/

/-- Claim C1, amended: under the registry invariant (in particular no
session carries uid 0, which JS treats as falsy) bind follows exactly the
claimed precedence: unknown sid gives a SessionNotFound error; a session
already bound to the very uid requested gives a no-op success; a session
bound to a different uid gives an AlreadyBound error; an unbound session
under singleSession with an existing bucket gives a SingleSessionViolation
error; otherwise the session is appended to the bucket, its uid set, a
bind notification emitted and the callback invoked with no error. -/
theorem bind_precedence (sid : Nat) (uid : Int) (cb : Nat) (s : ServiceState)
    (hi : SvcInvariant s) :
    (mLook sid s.sessions = none →
      SessionService.bind sid uid cb s = pushCb cb (some (sessNotExistMsg sid)) true s) ∧
    (∀ r sess, mLook sid s.sessions = some r → mLook r s.store = some sess →
      (sess.uid = some uid →
        SessionService.bind sid uid cb s = pushCb cb none false s) ∧
      (∀ u2, sess.uid = some u2 → u2 ≠ uid →
        SessionService.bind sid uid cb s =
          pushCb cb (some (alreadyBoundMsg (some u2))) true s) ∧
      (sess.uid = none → s.singleSession = true → (mLook uid s.uidMap).isSome = true →
        SessionService.bind sid uid cb s = pushCb cb (some (singleSessionMsg uid)) true s) ∧
      (sess.uid = none → (s.singleSession = false ∨ mLook uid s.uidMap = none) →
        SessionService.bind sid uid cb s =
          pushCb cb none true (pushEv (Ev.bindEv r uid)
            { s with uidMap := mPut uid (bucketOf uid s ++ [r]) s.uidMap, store := mPut r { sess with uid := some uid } s.store }))) := by
  constructor
  · intro h1
    simp only [SessionService.bind, h1]
  · intro r sess h1 h2
    have hid : sess.id = sid := by
      obtain ⟨sess0, h20, hid0⟩ := hi.1.sessWf sid r h1
      have he : sess = sess0 := Option.some.inj (h2.symm.trans h20)
      rw [he]
      exact hid0
    refine ⟨?_, ?_, ?_, ?_⟩
    · intro heq
      have hnz : uid ≠ 0 := hi.1.uidNz sid r sess uid h1 h2 heq
      have h3 : uidTruthy sess.uid = true := by
        rw [heq]
        simp [uidTruthy, hnz]
      simp only [SessionService.bind, h1, h2, if_pos h3, if_pos heq]
    · intro u2 heq hne
      have hnz : u2 ≠ 0 := hi.1.uidNz sid r sess u2 h1 h2 heq
      have h3 : uidTruthy sess.uid = true := by
        rw [heq]
        simp [uidTruthy, hnz]
      have h4 : ¬ (sess.uid = some uid) := by
        rw [heq]
        intro hc
        exact hne (Option.some.inj hc)
      simp only [SessionService.bind, h1, h2]
      rw [if_pos h3, if_neg h4, heq]
    · intro heq hss hsome
      have h3 : ¬ (uidTruthy sess.uid = true) := by
        rw [heq]
        simp [uidTruthy]
      have h5 : (s.singleSession && (mLook uid s.uidMap).isSome) = true := by
        rw [hss, hsome]
        rfl
      simp only [SessionService.bind, h1, h2]
      rw [if_neg h3, if_pos h5]
    · intro heq hcond
      have h3 : ¬ (uidTruthy sess.uid = true) := by
        rw [heq]
        simp [uidTruthy]
      have h5b : (s.singleSession && (mLook uid s.uidMap).isSome) = false := by
        cases hcond with
        | inl h => rw [h]; rfl
        | inr h => rw [h]; simp
      have h5 : ¬ ((s.singleSession && (mLook uid s.uidMap).isSome) = true) := by
        rw [h5b]
        exact Bool.false_ne_true
      have h6 : ¬ (((mLook uid s.uidMap).getD []).any
          (fun r2 => decide ((mLook r2 s.store).map Sess.id = some sess.id)) = true) := by
        cases hbk : mLook uid s.uidMap with
        | none => simp
        | some b =>
          simp only [Option.getD_some]
          intro hany
          obtain ⟨r2, hr2mem, hr2p⟩ := List.any_eq_true.mp hany
          have hdec : (mLook r2 s.store).map Sess.id = some sess.id := of_decide_eq_true hr2p
          obtain ⟨sess2, hst2, hu2, hreg2⟩ := (hi.1.bwd uid b hbk).2 r2 hr2mem
          rw [hst2] at hdec
          have hid2 : sess2.id = sess.id := Option.some.inj hdec
          rw [hid2, hid] at hreg2
          have hrr : r2 = r := Option.some.inj (hreg2.symm.trans h1)
          rw [hrr, h2] at hst2
          have hse : sess = sess2 := Option.some.inj hst2
          rw [← hse, heq] at hu2
          exact Option.noConfusion hu2
      simp only [SessionService.bind, h1, h2]
      rw [if_neg h3, if_neg h5, if_neg h6]
      unfold bucketOf
      rfl

/-- Claim C1, counterexample: session 1 is bound to uid 0 (reachable by
public operations, since binding an unbound session to uid 0 takes the
success path because 0 is falsy); calling bind again with the same uid 0
under singleSession yields a SingleSessionViolation error, not the no-op
success the claimed precedence promises for a session whose uid equals the
given uid. -/
theorem bind_precedence_cex :
    Reach false (SessionService.bind 1 0 7 (SessionService.create 1 "f1" 0 (initState true))) ∧
    mLook 1 (SessionService.bind 1 0 7
      (SessionService.create 1 "f1" 0 (initState true))).sessions = some 0 ∧
    (∃ sess, mLook 0 (SessionService.bind 1 0 7
        (SessionService.create 1 "f1" 0 (initState true))).store = some sess ∧
      sess.uid = some 0) ∧
    SessionService.bind 1 0 8 (SessionService.bind 1 0 7
        (SessionService.create 1 "f1" 0 (initState true))) =
      pushCb 8 (some (singleSessionMsg 0)) true (SessionService.bind 1 0 7
        (SessionService.create 1 "f1" 0 (initState true))) := by
  refine ⟨?_, by decide, ?_, by decide⟩
  · exact Reach.step
      (Reach.step (Reach.init false true)
        (Step.create false 1 "f1" 0 (initState true) (fun h => Bool.noConfusion h)))
      (Step.bind false 1 0 7 (SessionService.create 1 "f1" 0 (initState true))
        (fun h => Bool.noConfusion h))
  · exact ⟨{ id := 1, frontendId := "f1", uid := some 0, settings := [], state := ST_INITED, socket := 0 }, by decide, rfl⟩

/-- Witness for the amended claim C1 on a concrete invariant state:
rebinding session 1 to the uid 5 it is already bound to is a no-op with a
synchronous success callback. -/
theorem bind_precedence_witness :
    SessionService.bind 1 5 9
        (SessionService.bind 1 5 7 (SessionService.create 1 "f1" 0 (initState false))) =
      pushCb 9 none false
        (SessionService.bind 1 5 7 (SessionService.create 1 "f1" 0 (initState false))) := by
  have h := bind_precedence 1 5 9
    (SessionService.bind 1 5 7 (SessionService.create 1 "f1" 0 (initState false)))
    (reach_inv (Reach.step
      (Reach.step (Reach.init true false)
        (Step.create true 1 "f1" 0 (initState false) (fun _ => by decide)))
      (Step.bind true 1 5 7 (SessionService.create 1 "f1" 0 (initState false))
        (fun _ => by decide))))
  exact (h.2 0 sessF1b5 (by decide) (by decide)).1 rfl

/-! ## Claim C3: unbind semantics -/

/-- Claim C3, amended: for a registered sid under the registry invariant,
unbind with a uid the session is not bound to (its uid null or different)
invokes the callback with a NotBound error and leaves the registry
unchanged; when the session is bound to exactly that uid it is removed
from the bucket of the uid, the bucket is deleted entirely when it becomes
empty, the session uid is cleared, an unbind notification is emitted and
the callback is invoked deferred with no error. The invariant matters
because JS truthiness makes a session bound to uid 0 take the NotBound
path even when the given uid is 0. -/
theorem unbind_spec (sid : Nat) (uid : Int) (cb : Nat) (s : ServiceState)
    (hi : SvcInvariant s) (r : Nat) (sess : Sess)
    (h1 : mLook sid s.sessions = some r) (h2 : mLook r s.store = some sess) :
    (sess.uid = none ∨ sess.uid ≠ some uid →
      SessionService.unbind sid uid cb s = pushCb cb (some (notBindMsg sess.uid)) true s) ∧
    (sess.uid = some uid →
      r ∉ bucketOf uid (SessionService.unbind sid uid cb s) ∧
      (∀ r2, r2 ∈ bucketOf uid (SessionService.unbind sid uid cb s) ↔
        (r2 ∈ bucketOf uid s ∧ r2 ≠ r)) ∧
      (bucketOf uid s = [r] →
        mLook uid (SessionService.unbind sid uid cb s).uidMap = none) ∧
      mLook r (SessionService.unbind sid uid cb s).store = some { sess with uid := none } ∧
      (SessionService.unbind sid uid cb s).sessions = s.sessions ∧
      newEvs s (SessionService.unbind sid uid cb s) =
        [Ev.unbindEv r uid, Ev.cbCall cb none true]) := by
  constructor
  · intro hyp
    have h3 : uidTruthy sess.uid = false ∨ sess.uid ≠ some uid := by
      cases hyp with
      | inl h => left; rw [h]; rfl
      | inr h => right; exact h
    simp only [SessionService.unbind, h1, h2, if_pos h3]
  · intro hueq
    have hnz : uid ≠ 0 := hi.1.uidNz sid r sess uid h1 h2 hueq
    have h3o : ¬ (uidTruthy sess.uid = false ∨ sess.uid ≠ some uid) := by
      intro hh
      rcases hh with hh | hh
      · rw [hueq] at hh
        simp [uidTruthy, hnz] at hh
      · exact hh hueq
    have hbex : ∃ b, mLook uid s.uidMap = some b := by
      have hm := (hi.1.fwdIn sid r sess uid h1 h2 hueq).1
      unfold bucketOf at hm
      cases hbb : mLook uid s.uidMap with
      | none =>
        rw [hbb] at hm
        simp at hm
      | some b => exact ⟨b, rfl⟩
    obtain ⟨b, hb⟩ := hbex
    have hbeq : bucketOf uid s = b := by
      unfold bucketOf
      rw [hb]
      rfl
    obtain ⟨hpr, hothers, hmem, hndb⟩ := bucket_splice hi.1 h1 h2 hueq hb
    obtain ⟨hs1, hs2, hs3, hs4⟩ :=
      @spliceFirst_of_nodup_mem Nat
        (fun r2 => decide ((mLook r2 s.store).map Sess.id = some sid)) b r
        hpr hothers hndb hmem
    by_cases hemp :
        (spliceFirst (fun r2 => decide ((mLook r2 s.store).map Sess.id = some sid)) b).isEmpty = true
    · have hempeq :
          spliceFirst (fun r2 => decide ((mLook r2 s.store).map Sess.id = some sid)) b = [] :=
        List.isEmpty_iff.mp hemp
      have hrm : SessionService.unbind sid uid cb s =
          pushCb cb none true (pushEv (Ev.unbindEv r uid)
            { s with
              uidMap := mDrop uid s.uidMap,
              store := mPut r { sess with uid := none } s.store }) := by
        simp only [SessionService.unbind, h1, h2, if_neg h3o, hb, hemp, if_true]
      rw [hrm]
      have hbu : mLook uid (pushCb cb none true (pushEv (Ev.unbindEv r uid)
          { s with
            uidMap := mDrop uid s.uidMap,
            store := mPut r { sess with uid := none } s.store })).uidMap = none := by
        show mLook uid (mDrop uid s.uidMap) = none
        exact mLook_mDrop_self hi.1.ndU
      have hbem : bucketOf uid (pushCb cb none true (pushEv (Ev.unbindEv r uid)
          { s with
            uidMap := mDrop uid s.uidMap,
            store := mPut r { sess with uid := none } s.store })) = [] := by
        unfold bucketOf
        rw [hbu]
        rfl
      refine ⟨?_, ?_, ?_, ?_, ?_, ?_⟩
      · rw [hbem]
        exact List.not_mem_nil r
      · intro r2
        rw [hbem, hbeq]
        constructor
        · intro hx
          cases hx
        · rintro ⟨hx, hne⟩
          have hx2 := (hs3 r2).mpr ⟨hx, hne⟩
          rw [hempeq] at hx2
          cases hx2
      · intro _
        exact hbu
      · show mLook r (mPut r { sess with uid := none } s.store) = _
        rw [mLook_mPut_self]
      · rfl
      · exact newEvs_pushCb_pushEv_of _ _ _ _ rfl
    · have hempf :
          (spliceFirst (fun r2 => decide ((mLook r2 s.store).map Sess.id = some sid)) b).isEmpty = false := by
        cases hval :
            (spliceFirst (fun r2 => decide ((mLook r2 s.store).map Sess.id = some sid)) b).isEmpty
        · rfl
        · exact absurd hval hemp
      have hrm : SessionService.unbind sid uid cb s =
          pushCb cb none true (pushEv (Ev.unbindEv r uid)
            { s with
              uidMap := mPut uid (spliceFirst (fun r2 => decide ((mLook r2 s.store).map Sess.id = some sid)) b) s.uidMap,
              store := mPut r { sess with uid := none } s.store }) := by
        simp only [SessionService.unbind, h1, h2, if_neg h3o, hb, hempf,
          Bool.false_eq_true, if_false]
      rw [hrm]
      have hbu : mLook uid (pushCb cb none true (pushEv (Ev.unbindEv r uid)
          { s with
            uidMap := mPut uid (spliceFirst (fun r2 => decide ((mLook r2 s.store).map Sess.id = some sid)) b) s.uidMap,
            store := mPut r { sess with uid := none } s.store })).uidMap =
          some (spliceFirst (fun r2 => decide ((mLook r2 s.store).map Sess.id = some sid)) b) := by
        show mLook uid (mPut uid (spliceFirst (fun r2 => decide ((mLook r2 s.store).map Sess.id = some sid)) b) s.uidMap) = _
        rw [mLook_mPut_self]
      have hbem : bucketOf uid (pushCb cb none true (pushEv (Ev.unbindEv r uid)
          { s with
            uidMap := mPut uid (spliceFirst (fun r2 => decide ((mLook r2 s.store).map Sess.id = some sid)) b) s.uidMap,
            store := mPut r { sess with uid := none } s.store })) =
          spliceFirst (fun r2 => decide ((mLook r2 s.store).map Sess.id = some sid)) b := by
        unfold bucketOf
        rw [hbu]
        rfl
      refine ⟨?_, ?_, ?_, ?_, ?_, ?_⟩
      · rw [hbem]
        exact hs1
      · intro r2
        rw [hbem, hbeq]
        exact hs3 r2
      · intro hone
        exfalso
        rw [hbeq] at hone
        have hpr2 : decide ((mLook r s.store).map Sess.id = some sid) = true := hpr
        have hnil :
            spliceFirst (fun r2 => decide ((mLook r2 s.store).map Sess.id = some sid)) b = [] := by
          rw [hone]
          simp only [spliceFirst]
          rw [if_pos hpr2]
        rw [hnil] at hempf
        simp at hempf
      · show mLook r (mPut r { sess with uid := none } s.store) = _
        rw [mLook_mPut_self]
      · rfl
      · exact newEvs_pushCb_pushEv_of _ _ _ _ rfl

/-- Claim C3, counterexample: session 1 is bound to uid 0 (reachable by
public operations) and unbind is called with exactly that uid, yet the
callback receives a NotBound error and the registry is untouched, because
the source guards with JS truthiness (not session.uid) and 0 is falsy. -/
theorem unbind_spec_cex :
    Reach false (SessionService.bind 1 0 7 (SessionService.create 1 "f1" 0 (initState false))) ∧
    mLook 1 (SessionService.bind 1 0 7
      (SessionService.create 1 "f1" 0 (initState false))).sessions = some 0 ∧
    (∃ sess, mLook 0 (SessionService.bind 1 0 7
        (SessionService.create 1 "f1" 0 (initState false))).store = some sess ∧
      sess.uid = some 0) ∧
    (0 : Nat) ∈ bucketOf 0 (SessionService.bind 1 0 7
      (SessionService.create 1 "f1" 0 (initState false))) ∧
    SessionService.unbind 1 0 8 (SessionService.bind 1 0 7
        (SessionService.create 1 "f1" 0 (initState false))) =
      pushCb 8 (some (notBindMsg (some 0))) true (SessionService.bind 1 0 7
        (SessionService.create 1 "f1" 0 (initState false))) := by
  refine ⟨?_, by decide, ?_, by decide, by decide⟩
  · exact Reach.step
      (Reach.step (Reach.init false false)
        (Step.create false 1 "f1" 0 (initState false) (fun h => Bool.noConfusion h)))
      (Step.bind false 1 0 7 (SessionService.create 1 "f1" 0 (initState false))
        (fun h => Bool.noConfusion h))
  · exact ⟨{ id := 1, frontendId := "f1", uid := some 0, settings := [], state := ST_INITED, socket := 0 }, by decide, rfl⟩

/-- Witness for the amended claim C3 on a concrete invariant state:
unbinding the only session bound to uid 5 deletes the bucket and clears
the session uid. -/
theorem unbind_spec_witness :
    mLook 5 (SessionService.unbind 1 5 9
      (SessionService.bind 1 5 7 (SessionService.create 1 "f1" 0 (initState false)))).uidMap
      = none ∧
    mLook 0 (SessionService.unbind 1 5 9
      (SessionService.bind 1 5 7 (SessionService.create 1 "f1" 0 (initState false)))).store
      = some { sessF1b5 with uid := none } := by
  have h := unbind_spec 1 5 9
    (SessionService.bind 1 5 7 (SessionService.create 1 "f1" 0 (initState false)))
    (reach_inv (Reach.step
      (Reach.step (Reach.init true false)
        (Step.create true 1 "f1" 0 (initState false) (fun _ => by decide)))
      (Step.bind true 1 5 7 (SessionService.create 1 "f1" 0 (initState false))
        (fun _ => by decide))))
    0 sessF1b5 (by decide) (by decide)
  have h2 := h.2 rfl
  exact ⟨h2.2.2.1 (by decide), h2.2.2.2.1⟩
